import Mathlib

/-!
Verification of the fia avatar-bundle codec (`src/moon.rs`, `src/bbmodel.rs`,
`src/main.rs`) against its specification.

Shallow-embedding conventions, used throughout:

* `f64` fields are never subjected to arithmetic by the code under study (they
  are only stored, copied, and — for hashing — deliberately skipped), so a
  float value is modelled by its exact bit-pattern/value as an `Int` (`F64`).
* Rust `u8`/`u16`/`u32`/`usize` scalars are modelled as `Nat`; the Rust type
  system guarantees the ranges, which the code never exceeds by construction,
  and theorems that depend on a range state it as a hypothesis.
* `HashMap<String, V>` is modelled as an association list in insertion order;
  list equality refines map equality, so round-trip results transfer.
* The external gzip/NBT container (`quartz_nbt`) is, per spec §6, a dynamic
  tagged-value tree; `Nbt` models that tree and the compression level is
  carried as an inert framing field (`GzFile.level`) that decoding ignores.
* Rust's `std::hash::DefaultHasher` together with `derivative(Hash)` turns a
  node into a stream of primitive writes and then a 64-bit digest, which
  `Uuid::new_v5` (SHA-1) maps to a UUID.  The stream of primitive writes is
  modelled faithfully from the derived `Hash` impls (`hashTokens` below); the
  digest and the v5 step are external library code, modelled from the spec
  (§4.2: "stable for identical inputs, pseudo-random otherwise, collision
  probability negligible") as deterministic functions that are injective on
  the written stream (`hasherFinish`, `uuidV5`).
* A Rust panic (`assert!`) and a `serde` decode error are both modelled as
  `none`/decode failure; comments at each site say which one is meant.
-/

/-- Model of an `f64` value: the code only stores and copies floats (and skips
them when hashing), so each float is represented exactly, never approximated. -/
abbrev F64 := Int

/-- Model of `[f64; 3]`. -/
abbrev Vec3 := F64 × F64 × F64

/-- Model of `[f64; 4]`. -/
abbrev Vec4 := F64 × F64 × F64 × F64

/-- The dynamic tagged-value tree of the external NBT container (spec §6):
maps with string keys, lists, byte arrays, and scalar leaves.  `byte` carries
booleans, `num` the unsigned integral scalars, `double` the floats. -/
inductive Nbt where
  | byte (b : Nat)
  | num (n : Nat)
  | double (x : F64)
  | string (s : String)
  | byteArray (bs : List Nat)
  | list (xs : List Nbt)
  | compound (fields : List (String × Nbt))

/-- A 128-bit identifier (`uuid::Uuid`), as its high and low 64-bit halves
(`Uuid::from_u64_pair` takes them in this order). -/
structure Uuid where
  hi : Nat
  lo : Nat
deriving DecidableEq, Repr

/-- `ParentType` from `src/moon.rs`: the closed enumeration of attachment
slots.  Constructor order matches the Rust declaration order, which fixes the
discriminant used by the derived `Hash`. -/
inductive ParentType where
  | None | Head | Body | LeftArm | RightArm | LeftLeg | RightLeg
  | LeftElytra | RightElytra | Cape
  | World | Hud | Camera | Skull | Portrait | Arrow | Trident | Item
  | LeftItemPivot | RightItemPivot | LeftSpyglassPivot | RightSpyglassPivot
  | LeftParrotPivot | RightParrotPivot
  | HelmetItemPivot | HelmetPivot | ChestplatePivot | LeftShoulderPivot
  | RightShoulderPivot | LeggingsPivot | LeftLeggingPivot | RightLeggingPivot
  | LeftBootPivot | RightBootPivot | LeftElytraPivot | RightElytraPivot
deriving DecidableEq, Repr

/-- `Face` from `src/moon.rs`: texture-slot index, UV rectangle, rotation.
`uv` and `rot` carry `#[derivative(Hash = "ignore")]` in the source. -/
structure Face where
  tex : Nat
  uv : Vec4
  rot : F64

/-- `Sided<Face>` from `src/moon.rs` (the only instantiation used): one
optional face record per cube side, in source field order n, s, u, d, w, e. -/
structure Sided where
  n : Option Face
  s : Option Face
  u : Option Face
  d : Option Face
  w : Option Face
  e : Option Face

/-- `MeshData` from `src/moon.rs`.  `vtx` and `uvs` are hash-ignored floats;
`tex` packs `(texture_id << 4) | vertex_count` per face; `fac` is the
vertex-index list (the `Fac` delegate widens u8/u16 storage to u32 on read,
so in memory it is always a `Vec<u32>`). -/
structure MeshData where
  vtx : List F64
  tex : List Nat
  fac : List Nat
  uvs : List F64

/-- `ModelData` from `src/moon.rs`: the untagged variant payload of a model
part.  Variant order (Group, Cube, Mesh) matches the declaration order, which
is both the hash-discriminant order and the untagged-deserialization trial
order. -/
inductive ModelData where
  | group
  | cube (cube_data : Sided) (f : Vec3) (t : Vec3) (inf : F64)
  | mesh (mesh_data : MeshData)

/-- `ModelPart` from `src/moon.rs`.  Field order matches the Rust struct; the
recursive `chld` list forces this to be an inductive rather than a
structure. -/
inductive ModelPart where
  | mk
    (name : String)
    (chld : List ModelPart)
    (anim : Option Nbt)
    (rot : Vec3)
    (piv : Vec3)
    (primary : Option String)
    (secondary : Option String)
    (pt : Option ParentType)
    (vsb : Bool)
    (smo : Bool)
    (data : ModelData)
    (nr : Option (Nat × Nat × Nat × Nat))
    (cn : Option (List String))
    (pr : Option (List Nat))

def ModelPart.name : ModelPart → String
  | .mk x _ _ _ _ _ _ _ _ _ _ _ _ _ => x

def ModelPart.chld : ModelPart → List ModelPart
  | .mk _ x _ _ _ _ _ _ _ _ _ _ _ _ => x

def ModelPart.anim : ModelPart → Option Nbt
  | .mk _ _ x _ _ _ _ _ _ _ _ _ _ _ => x

def ModelPart.rot : ModelPart → Vec3
  | .mk _ _ _ x _ _ _ _ _ _ _ _ _ _ => x

def ModelPart.piv : ModelPart → Vec3
  | .mk _ _ _ _ x _ _ _ _ _ _ _ _ _ => x

def ModelPart.primary : ModelPart → Option String
  | .mk _ _ _ _ _ x _ _ _ _ _ _ _ _ => x

def ModelPart.secondary : ModelPart → Option String
  | .mk _ _ _ _ _ _ x _ _ _ _ _ _ _ => x

def ModelPart.pt : ModelPart → Option ParentType
  | .mk _ _ _ _ _ _ _ x _ _ _ _ _ _ => x

def ModelPart.vsb : ModelPart → Bool
  | .mk _ _ _ _ _ _ _ _ x _ _ _ _ _ => x

def ModelPart.smo : ModelPart → Bool
  | .mk _ _ _ _ _ _ _ _ _ x _ _ _ _ => x

def ModelPart.data : ModelPart → ModelData
  | .mk _ _ _ _ _ _ _ _ _ _ x _ _ _ => x

def ModelPart.nr : ModelPart → Option (Nat × Nat × Nat × Nat)
  | .mk _ _ _ _ _ _ _ _ _ _ _ x _ _ => x

def ModelPart.cn : ModelPart → Option (List String)
  | .mk _ _ _ _ _ _ _ _ _ _ _ _ x _ => x

def ModelPart.pr : ModelPart → Option (List Nat)
  | .mk _ _ _ _ _ _ _ _ _ _ _ _ _ x => x

/-- `TextureData` from `src/moon.rs`: primary and optional emissive layer. -/
structure TextureData where
  d : String
  e : Option String

/-- `Textures` from `src/moon.rs`: raw texture bytes by name, plus the indexed
texture-slot list. -/
structure Textures where
  src : List (String × List Nat)
  data : List TextureData

/-- `Metadata` from `src/moon.rs` (field order as in the source). -/
structure Metadata where
  uuid : String
  authors : String
  color : Option String
  bg : Option String
  id : Option String
  name : String
  description : String
  ver : String

/-- `Moon` from `src/moon.rs`: the top level of an avatar bundle. -/
structure Moon where
  textures : Textures
  scripts : List (String × List Nat)
  animations : List Nbt
  models : Option ModelPart
  resources : List (String × List Nat)
  metadata : Metadata

/-! ## Identifier derivation (`get_uuid_with_salt`, spec §4.2)

The derived `Hash` impls write a stream of primitive values for exactly the
non-ignored fields, in declaration order.  `hashTokens` reproduces that
stream as a `List Nat`; one token per primitive write, strings contributing
their character codes followed by the `0xff` terminator byte that `str`'s
`Hash` writes, slices/vectors contributing a length prefix. -/

/-- The token stream `str::hash` writes: the string's bytes then `0xff`. -/
def strTokens (s : String) : List Nat :=
  s.data.map Char.toNat ++ [255]

/-- The token stream the derived `Hash` for `Option<T>` writes: the variant
discriminant, then the payload's stream for `Some`. -/
def optTokens {α : Type} (f : α → List Nat) : Option α → List Nat
  | none => [0]
  | some x => 1 :: f x

/-- Token for a `bool` write. -/
def boolTok (b : Bool) : Nat := cond b 1 0

/-- Discriminant of a `ParentType`, in declaration order. -/
def ptDiscr : ParentType → Nat
  | .None => 0 | .Head => 1 | .Body => 2 | .LeftArm => 3 | .RightArm => 4
  | .LeftLeg => 5 | .RightLeg => 6 | .LeftElytra => 7 | .RightElytra => 8
  | .Cape => 9 | .World => 10 | .Hud => 11 | .Camera => 12 | .Skull => 13
  | .Portrait => 14 | .Arrow => 15 | .Trident => 16 | .Item => 17
  | .LeftItemPivot => 18 | .RightItemPivot => 19 | .LeftSpyglassPivot => 20
  | .RightSpyglassPivot => 21 | .LeftParrotPivot => 22 | .RightParrotPivot => 23
  | .HelmetItemPivot => 24 | .HelmetPivot => 25 | .ChestplatePivot => 26
  | .LeftShoulderPivot => 27 | .RightShoulderPivot => 28 | .LeggingsPivot => 29
  | .LeftLeggingPivot => 30 | .RightLeggingPivot => 31 | .LeftBootPivot => 32
  | .RightBootPivot => 33 | .LeftElytraPivot => 34 | .RightElytraPivot => 35

/-- Hash stream of a `Face`: only `tex` participates (`uv` and `rot` carry
`Hash = "ignore"`). -/
def faceHashTokens (f : Face) : List Nat := [f.tex]

/-- Hash stream of `Sided<Face>`, fields in declaration order. -/
def sidedHashTokens (sd : Sided) : List Nat :=
  optTokens faceHashTokens sd.n ++ optTokens faceHashTokens sd.s ++
  optTokens faceHashTokens sd.u ++ optTokens faceHashTokens sd.d ++
  optTokens faceHashTokens sd.w ++ optTokens faceHashTokens sd.e

/-- Hash stream of `MeshData`: `vtx` and `uvs` are ignored; `tex` and `fac`
hash as length-prefixed element streams (`Vec<T>`'s `Hash`). -/
def meshDataHashTokens (m : MeshData) : List Nat :=
  (m.tex.length :: m.tex) ++ (m.fac.length :: m.fac)

/-- Hash stream of `ModelData`: enum discriminant, then the non-ignored
variant fields (for `Cube`, only `cube_data`; `f`, `t`, `inf` are ignored). -/
def modelDataHashTokens : ModelData → List Nat
  | .group => [0]
  | .cube cd _ _ _ => 1 :: sidedHashTokens cd
  | .mesh md => 2 :: meshDataHashTokens md

/-- Hash stream of `Option<[u32; 4]>` (the `nr` field). -/
def nrTokens : Option (Nat × Nat × Nat × Nat) → List Nat
  | none => [0]
  | some (a, b, c, d) => [1, a, b, c, d]

/-- Hash stream of a `Vec<String>`. -/
def strListTokens (xs : List String) : List Nat :=
  xs.length :: xs.flatMap strTokens

/-- Hash stream of a `Vec<u32>`. -/
def natListTokens (xs : List Nat) : List Nat :=
  xs.length :: xs

mutual

/-- The stream of primitive writes the derived-with-`derivative` `Hash` impl
of `ModelPart` performs: fields in declaration order, skipping the ignored
`anim`, `rot` and `piv`. -/
def ModelPart.hashTokens : ModelPart → List Nat
  | .mk name chld _anim _rot _piv primary secondary pt vsb smo data nr cn pr =>
    strTokens name ++
    (chld.length :: ModelPart.hashTokensList chld) ++
    optTokens strTokens primary ++
    optTokens strTokens secondary ++
    optTokens (fun p => [ptDiscr p]) pt ++
    [boolTok vsb, boolTok smo] ++
    modelDataHashTokens data ++
    nrTokens nr ++
    optTokens strListTokens cn ++
    optTokens natListTokens pr

/-- Concatenated hash streams of a list of children (the elements of the
length-prefixed slice write). -/
def ModelPart.hashTokensList : List ModelPart → List Nat
  | [] => []
  | p :: ps => p.hashTokens ++ ModelPart.hashTokensList ps

end

/-- Modelled from the spec: `std::hash::DefaultHasher::finish` is external
library code; per spec §4.2 the digest is a deterministic function of the
written stream with negligible collision probability, modelled here as the
positional (base `2^64`, one digit per written word) combination of the
stream, which is injective on equal-length streams of 64-bit words. -/
def hasherFinish (stream : List Nat) : Nat :=
  stream.foldl (fun acc t => acc * 2 ^ 64 + t % 2 ^ 64) 0

/-- Modelled from the spec: `Uuid::new_v5` (SHA-1 name-based UUID) is external
library code; per spec §4.2 it is "stable for identical inputs, pseudo-random
otherwise, collision probability negligible", modelled as a deterministic
function of the namespace and the name bytes that is injective in the name. -/
def uuidV5 (ns : Uuid) (name : Nat) : Uuid :=
  ⟨Nat.pair ns.hi ns.lo, name⟩

/-- The `CONVERT_NS` namespace UUID `82703e95-07cb-41eb-8591-0ae63fc1e2db`. -/
def CONVERT_NS : Uuid :=
  ⟨0x82703e9507cb41eb, 0x85910ae63fc1e2db⟩

/-- `ModelPart::get_uuid_with_salt` from `src/moon.rs`: a stored `nr` is
decoded as two 64-bit halves (`(x[0] << 32) | x[1]`, `(x[2] << 32) | x[3]`);
otherwise the salt is hashed, then the part, and the 64-bit digest is fed as
name bytes to `Uuid::new_v5` under `CONVERT_NS`. -/
def ModelPart.get_uuid_with_salt (p : ModelPart) (salt : Nat) : Uuid :=
  match p.nr with
  | some (x0, x1, x2, x3) => ⟨x0 <<< 32 ||| x1, x2 <<< 32 ||| x3⟩
  | none => uuidV5 CONVERT_NS (hasherFinish (salt :: p.hashTokens))

/-- `ModelPart::get_uuid` from `src/moon.rs`: as `get_uuid_with_salt` but the
hasher receives only the part itself. -/
def ModelPart.get_uuid (p : ModelPart) : Uuid :=
  match p.nr with
  | some (x0, x1, x2, x3) => ⟨x0 <<< 32 ||| x1, x2 <<< 32 ||| x3⟩
  | none => uuidV5 CONVERT_NS (hasherFinish p.hashTokens)

/-! ## Editable-tree model (`src/bbmodel.rs`) -/

/-- `bbmodel::Face`: UV rectangle, optional texture-slot index, rotation. -/
structure BbFace where
  uv : Vec4
  texture : Option Nat
  rotation : F64

/-- `bbmodel::Faces`: one optional face per named side, in source field order
north, east, south, west, up, down. -/
structure Faces where
  north : Option BbFace
  east : Option BbFace
  south : Option BbFace
  west : Option BbFace
  up : Option BbFace
  down : Option BbFace

/-- `bbmodel::MeshFace`: per-face UV map, vertex-id references, optional
texture slot. -/
structure MeshFace where
  uv : List (String × (F64 × F64))
  vertices : List String
  texture : Option Nat

/-- `bbmodel::ElementType`: the payload of an editable-tree element.
Field order matches the Rust declaration. -/
inductive ElementType where
  | cube (from' : Vec3) (to' : Vec3) (uv_offset : Option (F64 × F64))
      (faces : Faces) (box_uv : Option Nbt) (rescale : Bool) (autouv : Nat)
      (light_emission : Option Nat) (mirror_uv : Option Bool)
      (inflate : Option F64) (shade : Option Nbt)
  | mesh (vertices : List (String × Vec3)) (faces : List (String × MeshFace))

/-- `bbmodel::Element`: a flat-list entry of the editable tree.  `uuid` is a
string in the source (`uuid.to_string()`); since `Uuid::to_string` is
injective, the string is modelled by the `Uuid` value itself. -/
structure Element where
  origin : Vec3
  name : String
  uuid : Uuid
  visibility : Option Bool
  locked : Bool
  render_order : Option Nbt
  allow_mirror_modeling : Bool
  export' : Option Bool
  color : Nat
  rotation : Vec3
  extra : ElementType

mutual

/-- `bbmodel::Group` (named `BbGroup` here because Mathlib reserves `Group`):
an outliner group.  Field order matches the source (name, origin, color,
uuid, export, mirror_uv, isOpen, locked, visibility, autouv, children). -/
inductive BbGroup where
  | mk (name : String) (origin : Vec3) (color : Nat) (uuid : Uuid)
      (export' : Bool) (mirror_uv : Bool) (isOpen : Bool) (locked : Bool)
      (visibility : Bool) (autouv : Nat) (children : List OutlinerItem)

/-- `bbmodel::OutlinerItem`: a group or the identifier of an element. -/
inductive OutlinerItem where
  | group (g : BbGroup)
  | element (uuid : Uuid)

end

def BbGroup.name : BbGroup → String
  | .mk x _ _ _ _ _ _ _ _ _ _ => x

def BbGroup.origin : BbGroup → Vec3
  | .mk _ x _ _ _ _ _ _ _ _ _ => x

def BbGroup.uuid : BbGroup → Uuid
  | .mk _ _ _ x _ _ _ _ _ _ _ => x

def BbGroup.children : BbGroup → List OutlinerItem
  | .mk _ _ _ _ _ _ _ _ _ _ x => x

/-- `Hierarchy` from `src/bbmodel.rs`: the conversion engine's output pairing
of the flat element list and the root outliner items. -/
structure Hierarchy where
  elements : List Element
  outliner : List OutlinerItem

/-- `impl Into<bbmodel::Face> for moon::Face` from `src/moon.rs`: copy the UV
rectangle and rotation, carry the texture index forward as `Some` (via the
std `From<T> for Option<T>` instance). -/
def Face.intoBb (f : Face) : BbFace :=
  { uv := f.uv, texture := some f.tex, rotation := f.rot }

/-- The `Faces` record built in the `Cube` arm of `convert_elements`: each
side of `cube_data` is mapped by `Into` and defaults to absent. -/
def Sided.toFaces (cd : Sided) : Faces :=
  { north := cd.n.map Face.intoBb
    east := cd.e.map Face.intoBb
    south := cd.s.map Face.intoBb
    west := cd.w.map Face.intoBb
    up := cd.u.map Face.intoBb
    down := cd.d.map Face.intoBb }

/-! ## Tree conversion (`ModelPart::convert_elements`, spec §4.3)

The Rust function mutates a `&mut Vec<Element>`; the model threads the list
explicitly.  The only panic site in the function is the
`assert!(chld.len() == 0)` in the `Cube` arm; a panic is modelled as `none`. -/

mutual

/-- `ModelPart::convert_elements` from `src/moon.rs`.  Returns `none` exactly
when the Rust code panics (the cube-with-children assertion). -/
def ModelPart.convert : ModelPart → List Element → Option (OutlinerItem × List Element)
  | p@(.mk name chld _anim rot piv _primary _secondary _pt vsb _smo data _nr _cn _pr),
    elements =>
    let uuid := p.get_uuid_with_salt elements.length
    match data with
    | .group =>
      -- Group arm: recurse into the children, return a Group item built over
      -- `Group::default()` (children collected, uuid/name/origin overridden).
      match ModelPart.convertList chld elements with
      | none => none
      | some (items, elements') =>
        some (.group (.mk name piv 0 uuid true false false false true 0 items),
          elements')
    | .cube cube_data f t inf =>
      -- Cube arm: `assert!(chld.len() == 0)` panics when violated.
      if chld.length = 0 then
        let part : Element :=
          { origin := piv
            name := name
            uuid := uuid
            visibility := some vsb
            locked := false
            render_order := none
            allow_mirror_modeling := true
            export' := some true
            color := 0
            rotation := rot
            extra := .cube f t none cube_data.toFaces none false 0 none
              (some false) (some inf) none }
        some (.element part.uuid, elements ++ [part])
      else none
    | .mesh _mesh_data =>
      -- Mesh arm (`TODO: implement mesh conversion` in the source): returns a
      -- Group built over `Group::default()` with only name/origin/uuid set —
      -- the children and the mesh geometry are not visited at all.
      some (.group (.mk name piv 0 uuid true false false false true 0 []),
        elements)

/-- The `chld.into_vec().into_iter().map(|p| p.convert_elements(elements))`
fold: children converted in order, each seeing the element list as left by
the previous one. -/
def ModelPart.convertList : List ModelPart → List Element →
    Option (List OutlinerItem × List Element)
  | [], elements => some ([], elements)
  | c :: cs, elements =>
    match c.convert elements with
    | none => none
    | some (item, elements') =>
      match ModelPart.convertList cs elements' with
      | none => none
      | some (items, elements'') => some (item :: items, elements'')

end

/-- `ModelPart::hierarchy` from `src/moon.rs`: requires a Group part, then
converts its children into a fresh element list.  The outer `Result` models
the `Err(self)` escape; the inner `Option` the possible panic. -/
def ModelPart.hierarchy (p : ModelPart) : Except ModelPart (Option Hierarchy) :=
  match p.data with
  | .group =>
    .ok (match ModelPart.convertList p.chld [] with
      | none => none
      | some (items, elements) => some ⟨elements, items⟩)
  | _ => .error p

mutual

/-- All element-reference identifiers appearing in an outliner item. -/
def OutlinerItem.refs : OutlinerItem → List Uuid
  | .group (.mk _ _ _ _ _ _ _ _ _ _ cs) => OutlinerItem.refsList cs
  | .element u => [u]

/-- All element-reference identifiers appearing in a list of outliner items. -/
def OutlinerItem.refsList : List OutlinerItem → List Uuid
  | [] => []
  | i :: is => i.refs ++ OutlinerItem.refsList is

end

/-! ## Author mutation (`MoonModifications::apply`, `src/main.rs`) -/

/-- `Vec::join("\n")` on the author list. -/
def joinNewline : List String → String
  | [] => ""
  | [x] => x
  | x :: xs => x ++ "\n" ++ joinNewline xs

/-- The `add_author` section of `MoonModifications::apply` (`src/main.rs`
lines 145–152): with authors to add, a current value of `""` or `"?"` is
replaced outright; anything else gets a newline and the new authors
appended. -/
def addAuthors (authors : String) (add_author : List String) : String :=
  if add_author.length > 0 then
    if authors = "" ∨ authors = "?" then
      joinNewline add_author
    else
      authors ++ "\n" ++ joinNewline add_author
  else authors

/-- The same mutation at the `Moon` level. -/
def Moon.applyAddAuthors (m : Moon) (add_author : List String) : Moon :=
  { m with metadata := { m.metadata with
      authors := addAuthors m.metadata.authors add_author } }

/-! ## Structural equivalence up to float-bearing fields

`ModelPart.floatEquiv p q` says `q` differs from `p` at most in the
floating-point-bearing fields the spec lists in §4.2: part rotation and
pivot, cube `f`/`t`/`inf`, face UV rectangles and rotations, and mesh
vertex/UV coordinate arrays.  Every other field — name, children
(recursively), animation payload, render types, parent type, flags, variant
discriminant, per-face texture indices, packed mesh arrays, stored identifier,
collections — must agree exactly. -/

mutual

/-- Structural equality on raw NBT tags (used for the `anim` payload, whose
nested lists make the derived `DecidableEq` unavailable). -/
def Nbt.beq : Nbt → Nbt → Bool
  | .byte a, .byte b => a == b
  | .num a, .num b => a == b
  | .double a, .double b => a == b
  | .string a, .string b => a == b
  | .byteArray a, .byteArray b => a == b
  | .list a, .list b => Nbt.beqList a b
  | .compound a, .compound b => Nbt.beqFields a b
  | _, _ => false

def Nbt.beqList : List Nbt → List Nbt → Bool
  | [], [] => true
  | x :: xs, y :: ys => Nbt.beq x y && Nbt.beqList xs ys
  | _, _ => false

def Nbt.beqFields : List (String × Nbt) → List (String × Nbt) → Bool
  | [], [] => true
  | (k, v) :: xs, (l, w) :: ys => k == l && Nbt.beq v w && Nbt.beqFields xs ys
  | _, _ => false

end

/-- Pointwise lifting of an equivalence to `Option`. -/
def optEquiv {α : Type} (f : α → α → Bool) : Option α → Option α → Bool
  | none, none => true
  | some a, some b => f a b
  | _, _ => false

/-- Faces agreeing on everything but floats: equal texture index (`uv` and
`rot` are the float fields). -/
def Face.floatEquiv (a b : Face) : Bool :=
  decide (a.tex = b.tex)

/-- Cube side records agreeing on everything but floats. -/
def Sided.floatEquiv (a b : Sided) : Bool :=
  optEquiv Face.floatEquiv a.n b.n && optEquiv Face.floatEquiv a.s b.s &&
  optEquiv Face.floatEquiv a.u b.u && optEquiv Face.floatEquiv a.d b.d &&
  optEquiv Face.floatEquiv a.w b.w && optEquiv Face.floatEquiv a.e b.e

/-- Variant payloads agreeing on everything but floats: same variant, and for
cubes equal side records (`f`, `t`, `inf` are floats), for meshes equal `tex`
and `fac` arrays (`vtx`, `uvs` are floats). -/
def ModelData.floatEquiv : ModelData → ModelData → Bool
  | .group, .group => true
  | .cube cd _ _ _, .cube cd' _ _ _ => cd.floatEquiv cd'
  | .mesh m, .mesh m' => decide (m.tex = m'.tex) && decide (m.fac = m'.fac)
  | _, _ => false

mutual

/-- Model parts agreeing on everything but float-bearing fields (`rot` and
`piv` are floats and unconstrained; children are compared recursively). -/
def ModelPart.floatEquiv : ModelPart → ModelPart → Bool
  | .mk name chld anim _rot _piv primary secondary pt vsb smo data nr cn pr,
    .mk name' chld' anim' _rot' _piv' primary' secondary' pt' vsb' smo' data' nr' cn' pr' =>
    decide (name = name') && ModelPart.floatEquivList chld chld' &&
    optEquiv Nbt.beq anim anim' &&
    decide (primary = primary') && decide (secondary = secondary') &&
    decide (pt = pt') && decide (vsb = vsb') && decide (smo = smo') &&
    ModelData.floatEquiv data data' && decide (nr = nr') &&
    decide (cn = cn') && decide (pr = pr')

def ModelPart.floatEquivList : List ModelPart → List ModelPart → Bool
  | [], [] => true
  | x :: xs, y :: ys => ModelPart.floatEquiv x y && ModelPart.floatEquivList xs ys
  | _, _ => false

end

/-! ## Container I/O (spec §4.4)

`quartz_nbt::serde` drives the derived `Serialize`/`Deserialize` impls of
`Moon` and its components over the tagged-value tree.  The derive semantics
is modelled from the attributes in the source:

* fields are serialized in declaration order; a `#[serde(flatten)]`ed payload
  contributes its own fields inline at its position;
* an `Option` field that is `None` is omitted from the map (there is no null
  tag in the container), and a missing `Option`/`#[serde(default)]` field
  deserializes to `None`/its default — `skip_serializing_if = "Option::is_none"`
  makes no observable difference under this policy;
* deserialization walks the map's entries in order, decoding each value as it
  is met; a duplicate key is an error; at the end, fields never seen take
  their defaults, and fields without a default that were never seen are an
  error;
* `#[serde(deny_unknown_fields)]` makes an unrecognized key an immediate
  error; `ModelPart` (which cannot carry that attribute because of its
  flattened payload) instead collects unrecognized keys and hands them to the
  untagged `ModelData`, whose variants are tried in declaration order
  (Group, Cube, Mesh), each rejecting keys outside its own field set;
* the untagged `Fac` helper widens `fac` entries to `u32` whichever branch
  matched, so `fac` decodes as a plain list of integers. -/

/-- The framing the external container applies around the tagged-value tree:
gzip with a chosen compression level.  Decoding never looks at the level. -/
structure GzFile where
  level : Nat
  payload : Nbt

/-- Serialize one optional field: present fields contribute one map entry,
absent fields contribute nothing. -/
def optField {α : Type} (k : String) (f : α → Nbt) : Option α → List (String × Nbt)
  | none => []
  | some x => [(k, f x)]

def encodeBool (b : Bool) : Nbt := .byte (cond b 1 0)

def encodeVec3 : Vec3 → Nbt
  | (a, b, c) => .list [.double a, .double b, .double c]

def encodeVec4 : Vec4 → Nbt
  | (a, b, c, d) => .list [.double a, .double b, .double c, .double d]

/-- Serialize a `HashMap<String, Array<Vec<u8>>>`: a compound of byte
arrays. -/
def encodeStrMap (m : List (String × List Nat)) : Nbt :=
  .compound (m.map fun kv => (kv.1, .byteArray kv.2))

/-- Serialize a `moon::Face` (fields tex, uv, rot). -/
def encodeFace (f : Face) : Nbt :=
  .compound [("tex", .num f.tex), ("uv", encodeVec4 f.uv), ("rot", .double f.rot)]

/-- Serialize `Sided<Face>`: six optional per-side entries. -/
def encodeSided (sd : Sided) : Nbt :=
  .compound (optField "n" encodeFace sd.n ++ (optField "s" encodeFace sd.s ++
    (optField "u" encodeFace sd.u ++ (optField "d" encodeFace sd.d ++
    (optField "w" encodeFace sd.w ++ optField "e" encodeFace sd.e)))))

/-- Serialize `MeshData` (derived impl: vtx, tex, fac, uvs). -/
def encodeMeshData (m : MeshData) : Nbt :=
  .compound [("vtx", .list (m.vtx.map Nbt.double)),
    ("tex", .list (m.tex.map Nbt.num)),
    ("fac", .list (m.fac.map Nbt.num)),
    ("uvs", .list (m.uvs.map Nbt.double))]

/-- The serialized name of a `ParentType` variant. -/
def ptName : ParentType → String
  | .None => "None" | .Head => "Head" | .Body => "Body"
  | .LeftArm => "LeftArm" | .RightArm => "RightArm"
  | .LeftLeg => "LeftLeg" | .RightLeg => "RightLeg"
  | .LeftElytra => "LeftElytra" | .RightElytra => "RightElytra"
  | .Cape => "Cape" | .World => "World" | .Hud => "Hud" | .Camera => "Camera"
  | .Skull => "Skull" | .Portrait => "Portrait" | .Arrow => "Arrow"
  | .Trident => "Trident" | .Item => "Item"
  | .LeftItemPivot => "LeftItemPivot" | .RightItemPivot => "RightItemPivot"
  | .LeftSpyglassPivot => "LeftSpyglassPivot"
  | .RightSpyglassPivot => "RightSpyglassPivot"
  | .LeftParrotPivot => "LeftParrotPivot"
  | .RightParrotPivot => "RightParrotPivot"
  | .HelmetItemPivot => "HelmetItemPivot" | .HelmetPivot => "HelmetPivot"
  | .ChestplatePivot => "ChestplatePivot"
  | .LeftShoulderPivot => "LeftShoulderPivot"
  | .RightShoulderPivot => "RightShoulderPivot"
  | .LeggingsPivot => "LeggingsPivot" | .LeftLeggingPivot => "LeftLeggingPivot"
  | .RightLeggingPivot => "RightLeggingPivot"
  | .LeftBootPivot => "LeftBootPivot" | .RightBootPivot => "RightBootPivot"
  | .LeftElytraPivot => "LeftElytraPivot"
  | .RightElytraPivot => "RightElytraPivot"

/-- The fields the flattened `ModelData` contributes inline. -/
def modelDataFields : ModelData → List (String × Nbt)
  | .group => []
  | .cube cd f t inf =>
    [("cube_data", encodeSided cd), ("f", encodeVec3 f), ("t", encodeVec3 t),
      ("inf", .double inf)]
  | .mesh md => [("mesh_data", encodeMeshData md)]

mutual

/-- The map entries of a serialized `ModelPart`, in field declaration order
with the flattened `ModelData` inline between `smo` and `nr`. -/
def encodePartFields : ModelPart → List (String × Nbt)
  | .mk name chld anim rot piv primary secondary pt vsb smo data nr cn pr =>
    ("name", .string name) :: ("chld", .list (encodeParts chld)) ::
    (optField "anim" (fun x => x) anim ++
    (("rot", encodeVec3 rot) :: ("piv", encodeVec3 piv) ::
    (optField "primary" Nbt.string primary ++
    (optField "secondary" Nbt.string secondary ++
    (optField "pt" (fun p => .string (ptName p)) pt ++
    (("vsb", encodeBool vsb) :: ("smo", encodeBool smo) ::
    (modelDataFields data ++
    (optField "nr" (fun x => .list [.num x.1, .num x.2.1, .num x.2.2.1, .num x.2.2.2]) nr ++
    (optField "cn" (fun xs => .list (xs.map Nbt.string)) cn ++
    optField "pr" (fun xs => .list (xs.map Nbt.num)) pr)))))))))

def encodeParts : List ModelPart → List Nbt
  | [] => []
  | p :: ps => .compound (encodePartFields p) :: encodeParts ps

end

/-- The map entries of a serialized `Metadata`. -/
def metadataFields (m : Metadata) : List (String × Nbt) :=
  ("uuid", .string m.uuid) :: ("authors", .string m.authors) ::
  (optField "color" Nbt.string m.color ++
  (optField "bg" Nbt.string m.bg ++
  (optField "id" Nbt.string m.id ++
  [("name", .string m.name), ("description", .string m.description),
    ("ver", .string m.ver)])))

/-- The map entries of a serialized `TextureData`. -/
def textureDataFields (td : TextureData) : List (String × Nbt) :=
  ("d", .string td.d) :: optField "e" Nbt.string td.e

/-- The map entries of a serialized `Textures`. -/
def texturesFields (t : Textures) : List (String × Nbt) :=
  [("src", encodeStrMap t.src),
    ("data", .list (t.data.map fun td => .compound (textureDataFields td)))]

/-- The map entries of a serialized `Moon`. -/
def moonFields (m : Moon) : List (String × Nbt) :=
  ("textures", .compound (texturesFields m.textures)) ::
  ("scripts", encodeStrMap m.scripts) ::
  ("animations", .list m.animations) ::
  (optField "models" (fun p => .compound (encodePartFields p)) m.models ++
  [("resources", encodeStrMap m.resources),
    ("metadata", .compound (metadataFields m.metadata))])

/-- `encode`: serialize a bundle and wrap it in the gzip framing at the chosen
compression level (`Flavor::GzCompressedWith`); the level only affects the
framing, never the tagged-value payload. -/
def Moon.encode (level : Nat) (m : Moon) : GzFile :=
  ⟨level, .compound (moonFields m)⟩

/-! ### Decoding -/

/-- Decode every element of a list, failing if any element fails (the
sequence operation serde's `Vec` deserialization performs). -/
def mapMOpt {α β : Type} (f : α → Option β) : List α → Option (List β)
  | [] => some []
  | x :: xs =>
    match f x with
    | none => none
    | some y => (mapMOpt f xs).map fun ys => y :: ys

def asString : Nbt → Option String
  | .string s => some s
  | _ => none

def asDouble : Nbt → Option F64
  | .double x => some x
  | _ => none

def asNum : Nbt → Option Nat
  | .num n => some n
  | _ => none

def asBool : Nbt → Option Bool
  | .byte b => some (b != 0)
  | _ => none

def asBytes : Nbt → Option (List Nat)
  | .byteArray bs => some bs
  | _ => none

def asVec3 : Nbt → Option Vec3
  | .list [.double a, .double b, .double c] => some (a, b, c)
  | _ => none

def asVec4 : Nbt → Option Vec4
  | .list [.double a, .double b, .double c, .double d] => some (a, b, c, d)
  | _ => none

def asNr : Nbt → Option (Nat × Nat × Nat × Nat)
  | .list [.num a, .num b, .num c, .num d] => some (a, b, c, d)
  | _ => none

def asDoubleList : Nbt → Option (List F64)
  | .list xs => mapMOpt asDouble xs
  | _ => none

def asNumList : Nbt → Option (List Nat)
  | .list xs => mapMOpt asNum xs
  | _ => none

def asStringList : Nbt → Option (List String)
  | .list xs => mapMOpt asString xs
  | _ => none

def asStrMap : Nbt → Option (List (String × List Nat))
  | .compound fs => mapMOpt (fun kv => (asBytes kv.2).map fun bs => (kv.1, bs)) fs
  | _ => none

/-- Parse a `ParentType` from its serialized variant name. -/
def parseParentType (s : String) : Option ParentType :=
  if s = "None" then some .None else if s = "Head" then some .Head
  else if s = "Body" then some .Body else if s = "LeftArm" then some .LeftArm
  else if s = "RightArm" then some .RightArm
  else if s = "LeftLeg" then some .LeftLeg
  else if s = "RightLeg" then some .RightLeg
  else if s = "LeftElytra" then some .LeftElytra
  else if s = "RightElytra" then some .RightElytra
  else if s = "Cape" then some .Cape else if s = "World" then some .World
  else if s = "Hud" then some .Hud else if s = "Camera" then some .Camera
  else if s = "Skull" then some .Skull
  else if s = "Portrait" then some .Portrait
  else if s = "Arrow" then some .Arrow
  else if s = "Trident" then some .Trident
  else if s = "Item" then some .Item
  else if s = "LeftItemPivot" then some .LeftItemPivot
  else if s = "RightItemPivot" then some .RightItemPivot
  else if s = "LeftSpyglassPivot" then some .LeftSpyglassPivot
  else if s = "RightSpyglassPivot" then some .RightSpyglassPivot
  else if s = "LeftParrotPivot" then some .LeftParrotPivot
  else if s = "RightParrotPivot" then some .RightParrotPivot
  else if s = "HelmetItemPivot" then some .HelmetItemPivot
  else if s = "HelmetPivot" then some .HelmetPivot
  else if s = "ChestplatePivot" then some .ChestplatePivot
  else if s = "LeftShoulderPivot" then some .LeftShoulderPivot
  else if s = "RightShoulderPivot" then some .RightShoulderPivot
  else if s = "LeggingsPivot" then some .LeggingsPivot
  else if s = "LeftLeggingPivot" then some .LeftLeggingPivot
  else if s = "RightLeggingPivot" then some .RightLeggingPivot
  else if s = "LeftBootPivot" then some .LeftBootPivot
  else if s = "RightBootPivot" then some .RightBootPivot
  else if s = "LeftElytraPivot" then some .LeftElytraPivot
  else if s = "RightElytraPivot" then some .RightElytraPivot
  else none

/-- Decode a value into a not-yet-seen slot; a second occurrence of the same
key (a filled slot) is a duplicate-field error. -/
def setOnce {α : Type} (slot : Option α) (dec : Nbt → Option α) (v : Nbt) : Option α :=
  match slot with
  | some _ => none
  | none => dec v

/-- Accumulator for `moon::Face` deserialization. -/
structure FaceAcc where
  tex : Option Nat := none
  uv : Option Vec4 := none
  rot : Option F64 := none

/-- Sequential deserializer for `moon::Face` (`deny_unknown_fields`; `tex` and
`uv` required, `rot` defaulted). -/
def decodeFaceFields : List (String × Nbt) → FaceAcc → Option Face
  | [], acc =>
    match acc.tex, acc.uv with
    | some tex, some uv => some ⟨tex, uv, acc.rot.getD 0⟩
    | _, _ => none
  | (k, v) :: rest, acc =>
    if k = "tex" then
      (setOnce acc.tex asNum v).bind fun x => decodeFaceFields rest {acc with tex := some x}
    else if k = "uv" then
      (setOnce acc.uv asVec4 v).bind fun x => decodeFaceFields rest {acc with uv := some x}
    else if k = "rot" then
      (setOnce acc.rot asDouble v).bind fun x => decodeFaceFields rest {acc with rot := some x}
    else none

def asFace : Nbt → Option Face
  | .compound fs => decodeFaceFields fs {}
  | _ => none

/-- Accumulator for `Sided<Face>` deserialization. -/
structure SidedAcc where
  n : Option Face := none
  s : Option Face := none
  u : Option Face := none
  d : Option Face := none
  w : Option Face := none
  e : Option Face := none

/-- Sequential deserializer for `Sided<Face>` (`deny_unknown_fields`; each
side optional). -/
def decodeSidedFields : List (String × Nbt) → SidedAcc → Option Sided
  | [], acc => some ⟨acc.n, acc.s, acc.u, acc.d, acc.w, acc.e⟩
  | (k, v) :: rest, acc =>
    if k = "n" then
      (setOnce acc.n asFace v).bind fun x => decodeSidedFields rest {acc with n := some x}
    else if k = "s" then
      (setOnce acc.s asFace v).bind fun x => decodeSidedFields rest {acc with s := some x}
    else if k = "u" then
      (setOnce acc.u asFace v).bind fun x => decodeSidedFields rest {acc with u := some x}
    else if k = "d" then
      (setOnce acc.d asFace v).bind fun x => decodeSidedFields rest {acc with d := some x}
    else if k = "w" then
      (setOnce acc.w asFace v).bind fun x => decodeSidedFields rest {acc with w := some x}
    else if k = "e" then
      (setOnce acc.e asFace v).bind fun x => decodeSidedFields rest {acc with e := some x}
    else none

def asSided : Nbt → Option Sided
  | .compound fs => decodeSidedFields fs {}
  | _ => none

/-- Accumulator for `MeshDataDelegate` deserialization. -/
structure MeshAcc where
  vtx : Option (List F64) := none
  tex : Option (List Nat) := none
  fac : Option (List Nat) := none
  uvs : Option (List F64) := none

/-- Sequential deserializer for `MeshData` via `MeshDataDelegate`
(`deny_unknown_fields`; all four fields required; `fac` accepts any integer
list, the untagged `Fac` widening every branch to `u32`). -/
def decodeMeshFields : List (String × Nbt) → MeshAcc → Option MeshData
  | [], acc =>
    match acc.vtx, acc.tex, acc.fac, acc.uvs with
    | some vtx, some tex, some fac, some uvs => some ⟨vtx, tex, fac, uvs⟩
    | _, _, _, _ => none
  | (k, v) :: rest, acc =>
    if k = "vtx" then
      (setOnce acc.vtx asDoubleList v).bind fun x => decodeMeshFields rest {acc with vtx := some x}
    else if k = "tex" then
      (setOnce acc.tex asNumList v).bind fun x => decodeMeshFields rest {acc with tex := some x}
    else if k = "fac" then
      (setOnce acc.fac asNumList v).bind fun x => decodeMeshFields rest {acc with fac := some x}
    else if k = "uvs" then
      (setOnce acc.uvs asDoubleList v).bind fun x => decodeMeshFields rest {acc with uvs := some x}
    else none

/-- Accumulator for the `Cube` variant of the untagged `ModelData`. -/
structure CubeAcc where
  cube_data : Option Sided := none
  f : Option Vec3 := none
  t : Option Vec3 := none
  inf : Option F64 := none

/-- Sequential deserializer for the `Cube` variant (`cube_data`, `f`, `t`
required; `inf` defaulted; anything else rejects the variant). -/
def decodeCubeFields : List (String × Nbt) → CubeAcc → Option ModelData
  | [], acc =>
    match acc.cube_data, acc.f, acc.t with
    | some cd, some f, some t => some (.cube cd f t (acc.inf.getD 0))
    | _, _, _ => none
  | (k, v) :: rest, acc =>
    if k = "cube_data" then
      (setOnce acc.cube_data asSided v).bind fun x => decodeCubeFields rest {acc with cube_data := some x}
    else if k = "f" then
      (setOnce acc.f asVec3 v).bind fun x => decodeCubeFields rest {acc with f := some x}
    else if k = "t" then
      (setOnce acc.t asVec3 v).bind fun x => decodeCubeFields rest {acc with t := some x}
    else if k = "inf" then
      (setOnce acc.inf asDouble v).bind fun x => decodeCubeFields rest {acc with inf := some x}
    else none

/-- The `Mesh` variant: exactly the `mesh_data` field. -/
def decodeMeshVariant : List (String × Nbt) → Option ModelData
  | [("mesh_data", .compound fs)] => (decodeMeshFields fs {}).map .mesh
  | _ => none

/-- The untagged `ModelData` deserializer over the fields left unclaimed by
`ModelPart`: variants tried in declaration order — `Group {}` (accepts only
an empty remainder), then `Cube`, then `Mesh`. -/
def decodeModelData (fields : List (String × Nbt)) : Option ModelData :=
  match fields with
  | [] => some .group
  | _ =>
    match decodeCubeFields fields {} with
    | some d => some d
    | none => decodeMeshVariant fields

/-- Accumulator for `ModelPart` deserialization.  For `Option`-typed source
fields, a filled slot simultaneously records that the key was seen and the
decoded payload. -/
structure PartAcc where
  name : Option String := none
  chld : Option (List ModelPart) := none
  anim : Option Nbt := none
  rot : Option Vec3 := none
  piv : Option Vec3 := none
  primary : Option String := none
  secondary : Option String := none
  pt : Option ParentType := none
  vsb : Option Bool := none
  smo : Option Bool := none
  nr : Option (Nat × Nat × Nat × Nat) := none
  cn : Option (List String) := none
  pr : Option (List Nat) := none
  leftover : List (String × Nbt) := []

/-- The `ModelPart` field visitor for a single entry other than `chld` (the
caller handles `chld` so it can recurse): the named fields are matched by key
and decoded on the spot; every other key is buffered for the flattened
untagged `ModelData`.  `none` is a decode error. -/
def partStep (k : String) (v : Nbt) (acc : PartAcc) : Option PartAcc :=
  if k = "name" then
    (setOnce acc.name asString v).map fun x => {acc with name := some x}
  else if k = "anim" then
    match acc.anim with
    | some _ => none
    | none => some {acc with anim := some v}
  else if k = "rot" then
    (setOnce acc.rot asVec3 v).map fun x => {acc with rot := some x}
  else if k = "piv" then
    (setOnce acc.piv asVec3 v).map fun x => {acc with piv := some x}
  else if k = "primary" then
    (setOnce acc.primary asString v).map fun x => {acc with primary := some x}
  else if k = "secondary" then
    (setOnce acc.secondary asString v).map fun x => {acc with secondary := some x}
  else if k = "pt" then
    (setOnce acc.pt (fun w => (asString w).bind parseParentType) v).map
      fun x => {acc with pt := some x}
  else if k = "vsb" then
    (setOnce acc.vsb asBool v).map fun x => {acc with vsb := some x}
  else if k = "smo" then
    (setOnce acc.smo asBool v).map fun x => {acc with smo := some x}
  else if k = "nr" then
    (setOnce acc.nr asNr v).map fun x => {acc with nr := some x}
  else if k = "cn" then
    (setOnce acc.cn asStringList v).map fun x => {acc with cn := some x}
  else if k = "pr" then
    (setOnce acc.pr asNumList v).map fun x => {acc with pr := some x}
  else
    some {acc with leftover := acc.leftover ++ [(k, v)]}

/-- End of the entry list: `name` is required, the remaining fields take
their defaults, and the buffered leftover keys must resolve to a `ModelData`
variant. -/
def finishPart (acc : PartAcc) : Option ModelPart :=
  match acc.name with
  | none => none
  | some name =>
    match decodeModelData acc.leftover with
    | none => none
    | some data =>
      some (.mk name (acc.chld.getD []) acc.anim (acc.rot.getD (0, 0, 0))
        (acc.piv.getD (0, 0, 0)) acc.primary acc.secondary acc.pt
        (acc.vsb.getD true) (acc.smo.getD false) data acc.nr acc.cn acc.pr)

mutual

/-- Sequential deserializer for `ModelPart`: entries are fed one at a time to
`partStep`, recursing into child lists as they are met. -/
def decodePartFields : List (String × Nbt) → PartAcc → Option ModelPart
  | [], acc => finishPart acc
  | (k, v) :: rest, acc =>
    if k = "chld" then
      match acc.chld with
      | some _ => none
      | none =>
        match v with
        | .list xs =>
          match decodeParts xs with
          | some cs => decodePartFields rest {acc with chld := some cs}
          | none => none
        | _ => none
    else
      match partStep k v acc with
      | some acc' => decodePartFields rest acc'
      | none => none

/-- Deserialize a list of `ModelPart` compounds. -/
def decodeParts : List Nbt → Option (List ModelPart)
  | [] => some []
  | x :: xs =>
    match x with
    | .compound fs =>
      match decodePartFields fs {} with
      | some p => (decodeParts xs).map fun ps => p :: ps
      | none => none
    | _ => none

end

def asModelPart : Nbt → Option ModelPart
  | .compound fs => decodePartFields fs {}
  | _ => none

/-- Accumulator for `TextureData` deserialization. -/
structure TextureDataAcc where
  d : Option String := none
  e : Option String := none

/-- Sequential deserializer for `TextureData` (`deny_unknown_fields`; `d`
required, `e` optional). -/
def decodeTextureDataFields : List (String × Nbt) → TextureDataAcc → Option TextureData
  | [], acc =>
    match acc.d with
    | some d => some ⟨d, acc.e⟩
    | none => none
  | (k, v) :: rest, acc =>
    if k = "d" then
      (setOnce acc.d asString v).bind fun x => decodeTextureDataFields rest {acc with d := some x}
    else if k = "e" then
      (setOnce acc.e asString v).bind fun x => decodeTextureDataFields rest {acc with e := some x}
    else none

def asTextureDataList : Nbt → Option (List TextureData)
  | .list xs => mapMOpt (fun x =>
      match x with
      | .compound fs => decodeTextureDataFields fs {}
      | _ => none) xs
  | _ => none

/-- Accumulator for `Textures` deserialization. -/
structure TexturesAcc where
  src : Option (List (String × List Nat)) := none
  data : Option (List TextureData) := none

/-- Sequential deserializer for `Textures` (`deny_unknown_fields`; both fields
defaulted). -/
def decodeTexturesFields : List (String × Nbt) → TexturesAcc → Option Textures
  | [], acc => some ⟨acc.src.getD [], acc.data.getD []⟩
  | (k, v) :: rest, acc =>
    if k = "src" then
      (setOnce acc.src asStrMap v).bind fun x => decodeTexturesFields rest {acc with src := some x}
    else if k = "data" then
      (setOnce acc.data asTextureDataList v).bind fun x => decodeTexturesFields rest {acc with data := some x}
    else none

/-- Accumulator for `Metadata` deserialization. -/
structure MetadataAcc where
  uuid : Option String := none
  authors : Option String := none
  color : Option String := none
  bg : Option String := none
  id : Option String := none
  name : Option String := none
  description : Option String := none
  ver : Option String := none

/-- Sequential deserializer for `Metadata` (`deny_unknown_fields`; every field
defaulted). -/
def decodeMetadataFields : List (String × Nbt) → MetadataAcc → Option Metadata
  | [], acc =>
    some ⟨acc.uuid.getD "", acc.authors.getD "", acc.color, acc.bg, acc.id,
      acc.name.getD "", acc.description.getD "", acc.ver.getD ""⟩
  | (k, v) :: rest, acc =>
    if k = "uuid" then
      (setOnce acc.uuid asString v).bind fun x => decodeMetadataFields rest {acc with uuid := some x}
    else if k = "authors" then
      (setOnce acc.authors asString v).bind fun x => decodeMetadataFields rest {acc with authors := some x}
    else if k = "color" then
      (setOnce acc.color asString v).bind fun x => decodeMetadataFields rest {acc with color := some x}
    else if k = "bg" then
      (setOnce acc.bg asString v).bind fun x => decodeMetadataFields rest {acc with bg := some x}
    else if k = "id" then
      (setOnce acc.id asString v).bind fun x => decodeMetadataFields rest {acc with id := some x}
    else if k = "name" then
      (setOnce acc.name asString v).bind fun x => decodeMetadataFields rest {acc with name := some x}
    else if k = "description" then
      (setOnce acc.description asString v).bind fun x => decodeMetadataFields rest {acc with description := some x}
    else if k = "ver" then
      (setOnce acc.ver asString v).bind fun x => decodeMetadataFields rest {acc with ver := some x}
    else none

def asTextures : Nbt → Option Textures
  | .compound fs => decodeTexturesFields fs {}
  | _ => none

def asMetadata : Nbt → Option Metadata
  | .compound fs => decodeMetadataFields fs {}
  | _ => none

def asNbtList : Nbt → Option (List Nbt)
  | .list xs => some xs
  | _ => none

/-- Accumulator for `Moon` deserialization. -/
structure MoonAcc where
  textures : Option Textures := none
  scripts : Option (List (String × List Nat)) := none
  animations : Option (List Nbt) := none
  models : Option ModelPart := none
  resources : Option (List (String × List Nat)) := none
  metadata : Option Metadata := none

/-- Sequential deserializer for `Moon` (`deny_unknown_fields`; every field
defaulted, `models` optional). -/
def decodeMoonFields : List (String × Nbt) → MoonAcc → Option Moon
  | [], acc =>
    some ⟨acc.textures.getD ⟨[], []⟩, acc.scripts.getD [], acc.animations.getD [],
      acc.models, acc.resources.getD [],
      acc.metadata.getD ⟨"", "", none, none, none, "", "", ""⟩⟩
  | (k, v) :: rest, acc =>
    if k = "textures" then
      (setOnce acc.textures asTextures v).bind fun x => decodeMoonFields rest {acc with textures := some x}
    else if k = "scripts" then
      (setOnce acc.scripts asStrMap v).bind fun x => decodeMoonFields rest {acc with scripts := some x}
    else if k = "animations" then
      (setOnce acc.animations asNbtList v).bind fun x => decodeMoonFields rest {acc with animations := some x}
    else if k = "models" then
      (setOnce acc.models asModelPart v).bind fun x => decodeMoonFields rest {acc with models := some x}
    else if k = "resources" then
      (setOnce acc.resources asStrMap v).bind fun x => decodeMoonFields rest {acc with resources := some x}
    else if k = "metadata" then
      (setOnce acc.metadata asMetadata v).bind fun x => decodeMoonFields rest {acc with metadata := some x}
    else none

/-- `decode`: unwrap the gzip framing (the compression level is not consulted)
and run the strict-schema deserializer on the tagged-value payload. -/
def Moon.decode (g : GzFile) : Option Moon :=
  match g.payload with
  | .compound fs => decodeMoonFields fs {}
  | _ => none

/-! ## Concrete sample inputs used by the claim theorems and witnesses -/

/-- An all-absent cube side record. -/
def emptySided : Sided := ⟨none, none, none, none, none, none⟩

/-- A plain leaf group part. -/
def leafGroup : ModelPart :=
  .mk "inner" [] none (0, 0, 0) (0, 0, 0) none none none true false .group
    none none none

/-- A cube part that illegally carries a child (violates the leaf-only
invariant of spec §3). -/
def cubeWithChild : ModelPart :=
  .mk "badcube" [leafGroup] none (0, 0, 0) (0, 0, 0) none none none true false
    (.cube emptySided (0, 0, 0) (1, 1, 1) 0) none none none

/-- A small mesh payload: one triangular face over three vertices, texture
slot 1 (`tex = (1 <<< 4) ||| 3`). -/
def sampleMeshData : MeshData :=
  ⟨[0, 0, 0, 1, 0, 0, 0, 1, 0], [19], [0, 1, 2], [0, 0, 1, 0, 0, 1]⟩

/-- A leaf mesh part. -/
def meshNode : ModelPart :=
  .mk "themesh" [] none (0, 0, 0) (2, 3, 4) none none none true false
    (.mesh sampleMeshData) none none none

/-- A mesh part that illegally carries a child. -/
def meshWithChild : ModelPart :=
  .mk "badmesh" [leafGroup] none (0, 0, 0) (0, 0, 0) none none none true false
    (.mesh sampleMeshData) none none none

/-- The `"box"` cube of the spec §8 end-to-end scenario: from `[0,0,0]`, to
`[1,1,1]`, a single `up` face with texture index 0 and uv `[0,0,16,16]`. -/
def boxCube : ModelPart :=
  .mk "box" [] none (0, 0, 0) (0, 0, 0) none none none true false
    (.cube ⟨none, none, some ⟨0, (0, 0, 16, 16), 0⟩, none, none, none⟩
      (0, 0, 0) (1, 1, 1) 0) none none none

/-- The `"root"` group of the spec §8 end-to-end scenario. -/
def rootGroup : ModelPart :=
  .mk "root" [boxCube] none (0, 0, 0) (0, 0, 0) none none none true false
    .group none none none

/-- First of two structurally identical sibling cubes (pivot at the origin). -/
def twinCubeA : ModelPart :=
  .mk "twin" [] none (0, 0, 0) (0, 0, 0) none none none true false
    (.cube emptySided (0, 0, 0) (1, 1, 1) 0) none none none

/-- Second sibling cube: identical to `twinCubeA` except for its pivot. -/
def twinCubeB : ModelPart :=
  .mk "twin" [] none (0, 0, 0) (5, 5, 5) none none none true false
    (.cube emptySided (0, 0, 0) (1, 1, 1) 0) none none none

/-- A group holding the two near-identical sibling cubes. -/
def twinParent : ModelPart :=
  .mk "parent" [twinCubeA, twinCubeB] none (0, 0, 0) (0, 0, 0) none none none
    true false .group none none none

/-- A part carrying a stored compact identifier. -/
def storedIdPart : ModelPart :=
  .mk "stored" [] none (0, 0, 0) (0, 0, 0) none none none true false .group
    (some (1, 2, 3, 4)) none none

/-- A lone leaf cube, input of the element-reference witness. -/
def soloCube : ModelPart :=
  .mk "solo" [] none (0, 0, 0) (0, 0, 0) none none none true false
    (.cube emptySided (0, 0, 0) (1, 1, 1) 0) none none none

/-- The element `soloCube` converts to. -/
def soloElement : Element :=
  { origin := (0, 0, 0)
    name := "solo"
    uuid := soloCube.get_uuid_with_salt 0
    visibility := some true
    locked := false
    render_order := none
    allow_mirror_modeling := true
    export' := some true
    color := 0
    rotation := (0, 0, 0)
    extra := .cube (0, 0, 0) (1, 1, 1) none emptySided.toFaces none false 0
      none (some false) (some 0) none }

/-- A tiny but fully populated bundle exercising every record of the schema,
used to witness the round-trip theorem on a concrete value. -/
def sampleMoon : Moon :=
  { textures :=
      { src := [("skin", [1, 2, 3])]
        data := [⟨"skin", some "skin_e"⟩, ⟨"cloak", none⟩] }
    scripts := [("main", [104, 105])]
    animations := [.string "anim0"]
    models := some rootGroup
    resources := [("res.bin", [0, 255])]
    metadata :=
      { uuid := "u-u-i-d", authors := "?", color := some "#ff0000", bg := none
        id := none, name := "Sample", description := "d", ver := "0.1.4" } }

/-- The keys of the `Moon` schema. -/
def moonKeys : List String :=
  ["textures", "scripts", "animations", "models", "resources", "metadata"]

/-- The named field keys of the `ModelPart` schema. -/
def partKeys : List String :=
  ["name", "chld", "anim", "rot", "piv", "primary", "secondary", "pt", "vsb",
    "smo", "nr", "cn", "pr"]

/-- The keys recognized by the untagged `ModelData` variants. -/
def dataKeys : List String :=
  ["cube_data", "f", "t", "inf", "mesh_data"]

/-- The keys of the `Face` schema. -/
def faceKeys : List String :=
  ["tex", "uv", "rot"]

/-- The keys of the `Sided` schema. -/
def sidedKeys : List String :=
  ["n", "s", "u", "d", "w", "e"]

/-- The keys of the `MeshData` schema. -/
def meshKeys : List String :=
  ["vtx", "tex", "fac", "uvs"]

/-- The keys of the `TextureData` schema. -/
def textureDataKeys : List String :=
  ["d", "e"]

/-- The keys of the `Textures` schema. -/
def texturesKeys : List String :=
  ["src", "data"]

/-- The keys of the `Metadata` schema. -/
def metadataKeys : List String :=
  ["uuid", "authors", "color", "bg", "id", "name", "description", "ver"]

/-! ## Theorems -/

/-- Structural induction over `ModelPart`, with the recursive hypothesis for
every child of the node. -/
theorem ModelPart.inductionOn {P : ModelPart → Prop}
    (step : ∀ (name : String) (chld : List ModelPart) anim rot piv primary
      secondary pt vsb smo data nr cn pr,
      (∀ c ∈ chld, P c) →
      P (.mk name chld anim rot piv primary secondary pt vsb smo data nr cn pr)) :
    ∀ p, P p := by
  have key : ∀ n p, sizeOf p ≤ n → P p := by
    intro n
    induction n with
    | zero =>
      intro p hp
      cases p with
      | mk name chld anim rot piv primary secondary pt vsb smo data nr cn pr =>
        simp at hp
    | succ n ih =>
      intro p hp
      cases p with
      | mk name chld anim rot piv primary secondary pt vsb smo data nr cn pr =>
        apply step
        intro c hc
        apply ih
        have h1 : sizeOf c < sizeOf chld := List.sizeOf_lt_of_mem hc
        have h2 : sizeOf chld <
            sizeOf (ModelPart.mk name chld anim rot piv primary secondary pt
              vsb smo data nr cn pr) := by
          simp
          omega
        omega
  exact fun p => key (sizeOf p) p (Nat.le_refl _)

/-- Splicing a low word below a 32-bit shift is concatenation. -/
theorem shiftLeft32_or_eq_concat (a b : Nat) (hb : b < 2 ^ 32) :
    a <<< 32 ||| b = a * 2 ^ 32 + b := by
  apply Nat.eq_of_testBit_eq
  intro i
  rw [Nat.testBit_or, Nat.testBit_shiftLeft]
  rw [show a * 2 ^ 32 + b = 2 ^ 32 * a + b by ring]
  rw [Nat.testBit_mul_pow_two_add a hb i]
  by_cases h : i < 32
  · have h' : ¬ 32 ≤ i := by omega
    simp [h, h']
  · have hgt : 32 ≤ i := by omega
    have hbi : b.testBit i = false :=
      Nat.testBit_lt_two_pow
        (lt_of_lt_of_le hb (Nat.pow_le_pow_right (by norm_num) hgt))
    simp [h, hgt, hbi]

/-- The hasher fold is positional: a starting accumulator is shifted past the
whole stream. -/
theorem hasherFoldl_acc (ts : List Nat) (a : Nat) :
    ts.foldl (fun acc t => acc * 2 ^ 64 + t % 2 ^ 64) a =
      a * (2 ^ 64) ^ ts.length +
        ts.foldl (fun acc t => acc * 2 ^ 64 + t % 2 ^ 64) 0 := by
  induction ts generalizing a with
  | nil => simp
  | cons t ts ih =>
    simp only [List.foldl_cons, List.length_cons]
    rw [ih (a * 2 ^ 64 + t % 2 ^ 64), ih (0 * 2 ^ 64 + t % 2 ^ 64)]
    ring

/-- The zero-seeded hasher fold stays below its positional bound. -/
theorem hasherFoldl_lt (ts : List Nat) :
    ts.foldl (fun acc t => acc * 2 ^ 64 + t % 2 ^ 64) 0 < (2 ^ 64) ^ ts.length := by
  induction ts with
  | nil => simp
  | cons t ts ih =>
    simp only [List.foldl_cons, List.length_cons]
    rw [hasherFoldl_acc]
    have h1 : t % 2 ^ 64 < 2 ^ 64 := Nat.mod_lt _ (by norm_num)
    calc (0 * 2 ^ 64 + t % 2 ^ 64) * (2 ^ 64) ^ ts.length +
          ts.foldl (fun acc t => acc * 2 ^ 64 + t % 2 ^ 64) 0
        < (0 * 2 ^ 64 + t % 2 ^ 64) * (2 ^ 64) ^ ts.length + (2 ^ 64) ^ ts.length := by
          omega
      _ = (t % 2 ^ 64 + 1) * (2 ^ 64) ^ ts.length := by ring
      _ ≤ 2 ^ 64 * (2 ^ 64) ^ ts.length :=
          Nat.mul_le_mul_right _ (Nat.succ_le_of_lt h1)
      _ = (2 ^ 64) ^ (ts.length + 1) := by ring

/-- Streams of equal tails whose head words differ modulo `2^64` get distinct
digests. -/
theorem hasherFinish_cons_ne (a b : Nat) (ts : List Nat)
    (h : a % 2 ^ 64 ≠ b % 2 ^ 64) :
    hasherFinish (a :: ts) ≠ hasherFinish (b :: ts) := by
  unfold hasherFinish
  simp only [List.foldl_cons]
  rw [hasherFoldl_acc (a := 0 * 2 ^ 64 + a % 2 ^ 64),
    hasherFoldl_acc (a := 0 * 2 ^ 64 + b % 2 ^ 64)]
  intro heq
  have hK : 0 < (2 ^ 64 : Nat) ^ ts.length := Nat.pos_pow_of_pos _ (by norm_num)
  have heq2 : (0 * 2 ^ 64 + a % 2 ^ 64) * (2 ^ 64) ^ ts.length =
      (0 * 2 ^ 64 + b % 2 ^ 64) * (2 ^ 64) ^ ts.length := by omega
  have := Nat.eq_of_mul_eq_mul_right hK heq2
  omega

/-- Equivalent optional payloads write identical streams, given their bodies
do. -/
theorem optTokens_congr {α : Type} (f : α → List Nat) (eqv : α → α → Bool)
    (hf : ∀ a b, eqv a b = true → f a = f b) :
    ∀ o o', optEquiv eqv o o' = true → optTokens f o = optTokens f o'
  | none, none, _ => rfl
  | some a, some b, h => by
    simp only [optEquiv] at h
    simp [optTokens, hf a b h]

/-- Float-equivalent faces write identical hash streams. -/
theorem faceHashTokens_congr (a b : Face) (h : Face.floatEquiv a b = true) :
    faceHashTokens a = faceHashTokens b := by
  simp only [Face.floatEquiv, decide_eq_true_eq] at h
  simp [faceHashTokens, h]

/-- Float-equivalent side records write identical hash streams. -/
theorem sidedHashTokens_congr (a b : Sided) (h : Sided.floatEquiv a b = true) :
    sidedHashTokens a = sidedHashTokens b := by
  simp only [Sided.floatEquiv, Bool.and_eq_true] at h
  obtain ⟨⟨⟨⟨⟨hn, hs⟩, hu⟩, hd⟩, hw⟩, he⟩ := h
  simp [sidedHashTokens, optTokens_congr _ _ faceHashTokens_congr _ _ hn,
    optTokens_congr _ _ faceHashTokens_congr _ _ hs,
    optTokens_congr _ _ faceHashTokens_congr _ _ hu,
    optTokens_congr _ _ faceHashTokens_congr _ _ hd,
    optTokens_congr _ _ faceHashTokens_congr _ _ hw,
    optTokens_congr _ _ faceHashTokens_congr _ _ he]

/-- Float-equivalent variant payloads write identical hash streams. -/
theorem modelDataHashTokens_congr (a b : ModelData)
    (h : ModelData.floatEquiv a b = true) :
    modelDataHashTokens a = modelDataHashTokens b := by
  cases a <;> cases b
  · rfl
  · simp [ModelData.floatEquiv] at h
  · simp [ModelData.floatEquiv] at h
  · simp [ModelData.floatEquiv] at h
  · simp only [ModelData.floatEquiv] at h
    simp [modelDataHashTokens, sidedHashTokens_congr _ _ h]
  · simp [ModelData.floatEquiv] at h
  · simp [ModelData.floatEquiv] at h
  · simp [ModelData.floatEquiv] at h
  · simp only [ModelData.floatEquiv, Bool.and_eq_true, decide_eq_true_eq] at h
    simp [modelDataHashTokens, meshDataHashTokens, h.1, h.2]

/-- Float-equivalent child lists have equal length and write identical
concatenated hash streams. -/
theorem hashTokensList_congr :
    ∀ (cs cs' : List ModelPart),
      (∀ c ∈ cs, ∀ q, ModelPart.floatEquiv c q = true →
        c.hashTokens = q.hashTokens) →
      ModelPart.floatEquivList cs cs' = true →
      cs.length = cs'.length ∧
        ModelPart.hashTokensList cs = ModelPart.hashTokensList cs' := by
  intro cs
  induction cs with
  | nil =>
    intro cs' _ h
    cases cs' with
    | nil => exact ⟨rfl, rfl⟩
    | cons c' cs' => simp [ModelPart.floatEquivList] at h
  | cons c cs ih =>
    intro cs' hpt h
    cases cs' with
    | nil => simp [ModelPart.floatEquivList] at h
    | cons c' cs' =>
      simp only [ModelPart.floatEquivList, Bool.and_eq_true] at h
      obtain ⟨h1, h2⟩ := h
      obtain ⟨hl, ht⟩ := ih cs' (fun x hx => hpt x (List.mem_cons_of_mem _ hx)) h2
      refine ⟨by simp [hl], ?_⟩
      simp [ModelPart.hashTokensList, ht, hpt c (List.mem_cons_self _ _) c' h1]

/-- Float-equivalent model parts write identical hash streams: the stream
visits only the float-free fields. -/
theorem hashTokens_congr : ∀ p q : ModelPart,
    ModelPart.floatEquiv p q = true → p.hashTokens = q.hashTokens := by
  refine ModelPart.inductionOn ?_
  intro name chld anim rot piv primary secondary pt vsb smo data nr cn pr ih q h
  cases q with
  | mk name' chld' anim' rot' piv' primary' secondary' pt' vsb' smo' data' nr' cn' pr' =>
    simp only [ModelPart.floatEquiv, Bool.and_eq_true, decide_eq_true_eq] at h
    obtain ⟨⟨⟨⟨⟨⟨⟨⟨⟨⟨⟨hname, hchld⟩, _hanim⟩, hprim⟩, hsec⟩, hpt⟩, hvsb⟩,
      hsmo⟩, hdata⟩, hnr⟩, hcn⟩, hpr⟩ := h
    obtain ⟨hlen, htoks⟩ := hashTokensList_congr chld chld' ih hchld
    subst hname hprim hsec hpt hvsb hsmo hnr hcn hpr
    simp [ModelPart.hashTokens, hlen, htoks, modelDataHashTokens_congr _ _ hdata]

/-- C4: a model-part node with a stored 4×32-bit-word identifier resolves, for
every salt, to the 128-bit identifier whose high half concatenates words 0
and 1 (word 0 on top) and whose low half concatenates words 2 and 3; the salt
is ignored. -/
theorem stored_id_decoded_exactly (p : ModelPart) (x0 x1 x2 x3 s s' : Nat)
    (h : p.nr = some (x0, x1, x2, x3))
    (_h0 : x0 < 2 ^ 32) (h1 : x1 < 2 ^ 32) (_h2 : x2 < 2 ^ 32) (h3 : x3 < 2 ^ 32) :
    p.get_uuid_with_salt s = ⟨x0 * 2 ^ 32 + x1, x2 * 2 ^ 32 + x3⟩ ∧
    p.get_uuid_with_salt s = p.get_uuid_with_salt s' := by
  constructor
  · simp only [ModelPart.get_uuid_with_salt, h]
    rw [shiftLeft32_or_eq_concat _ _ h1, shiftLeft32_or_eq_concat _ _ h3]
  · simp only [ModelPart.get_uuid_with_salt, h]

/-- Witness for C4 at a concrete stored identifier. -/
theorem stored_id_decoded_exactly_witness :
    storedIdPart.nr = some (1, 2, 3, 4) ∧
    (storedIdPart.get_uuid_with_salt 9 = ⟨1 * 2 ^ 32 + 2, 3 * 2 ^ 32 + 4⟩ ∧
      storedIdPart.get_uuid_with_salt 9 = storedIdPart.get_uuid_with_salt 55) :=
  ⟨rfl, stored_id_decoded_exactly storedIdPart 1 2 3 4 9 55 rfl (by norm_num)
    (by norm_num) (by norm_num) (by norm_num)⟩

/-- C5: a model-part node without a stored identifier resolves
deterministically (repeated calls with the same node and salt agree), and a
node differing only in float-bearing fields (rotation, pivot, face UV
rectangles, face rotation, inflate scalar, mesh vertex/UV arrays) resolves to
the same identifier. -/
theorem resolve_id_float_invariant (p q : ModelPart) (s : Nat)
    (hnr : p.nr = none) (heq : ModelPart.floatEquiv p q = true) :
    p.get_uuid_with_salt s = p.get_uuid_with_salt s ∧
    q.get_uuid_with_salt s = p.get_uuid_with_salt s := by
  refine ⟨rfl, ?_⟩
  have htok := hashTokens_congr p q heq
  have hq : q.nr = none := by
    cases p with
    | mk name chld anim rot piv primary secondary pt vsb smo data nr cn pr =>
      cases q with
      | mk name' chld' anim' rot' piv' primary' secondary' pt' vsb' smo' data' nr' cn' pr' =>
        simp only [ModelPart.floatEquiv, Bool.and_eq_true, decide_eq_true_eq] at heq
        obtain ⟨⟨⟨⟨⟨⟨⟨⟨⟨⟨⟨_, _⟩, _⟩, _⟩, _⟩, _⟩, _⟩, _⟩, _⟩, hnreq⟩, _⟩, _⟩ := heq
        simp only [ModelPart.nr] at hnr ⊢
        rw [← hnreq, hnr]
  simp only [ModelPart.get_uuid_with_salt, hnr, hq, htok]

/-- Witness for C5 at the two concrete sibling cubes that differ only in
their pivot. -/
theorem resolve_id_float_invariant_witness :
    twinCubeA.nr = none ∧ ModelPart.floatEquiv twinCubeA twinCubeB = true ∧
    (twinCubeA.get_uuid_with_salt 7 = twinCubeA.get_uuid_with_salt 7 ∧
      twinCubeB.get_uuid_with_salt 7 = twinCubeA.get_uuid_with_salt 7) :=
  ⟨rfl, rfl, resolve_id_float_invariant twinCubeA twinCubeB 7 rfl rfl⟩

/-- C9: starting from authors `"?"` (or empty), appending one author yields
exactly that author; the placeholder is never concatenated or preserved. -/
theorem add_author_replaces_placeholder (m : Moon) (a : String)
    (h : m.metadata.authors = "" ∨ m.metadata.authors = "?") :
    (m.applyAddAuthors [a]).metadata.authors = a := by
  rcases h with h | h <;> simp [Moon.applyAddAuthors, addAuthors, h, joinNewline]

/-- Witness for C9 on the concrete sample bundle (authors `"?"`). -/
theorem add_author_replaces_placeholder_witness :
    (sampleMoon.metadata.authors = "" ∨ sampleMoon.metadata.authors = "?") ∧
    (sampleMoon.applyAddAuthors ["alice"]).metadata.authors = "alice" :=
  ⟨Or.inr rfl, add_author_replaces_placeholder sampleMoon "alice" (Or.inr rfl)⟩

/-- C2, what the code actually does (the claim asks for an explicit
`InvariantViolation` error in both cases): converting a cube with a child
panics on `assert!(chld.len() == 0)` (modelled as `none` — no error value
reaches the caller), and converting a mesh with a child succeeds while
silently dropping the child, returning an empty placeholder group and
appending nothing. -/
theorem cube_or_mesh_with_children_mishandled :
    ModelPart.convert cubeWithChild [] = none ∧
    ModelPart.convert meshWithChild [] =
      some (.group (.mk "badmesh" (0, 0, 0) 0
        (meshWithChild.get_uuid_with_salt 0) true false false false true 0 []),
        []) := by
  constructor
  · simp [cubeWithChild, ModelPart.convert]
  · simp [meshWithChild, ModelPart.convert]

/-- C3, what the code actually does (the claim asks for a full
`ElementType::Mesh` element): converting a childless mesh node emits an empty
placeholder group carrying only name, origin and identifier, appends no
element, and loses the mesh geometry entirely. -/
theorem mesh_conversion_placeholder :
    ModelPart.convert meshNode [] =
      some (.group (.mk "themesh" (2, 3, 4) 0 (meshNode.get_uuid_with_salt 0)
        true false false false true 0 []), []) := by
  simp [meshNode, ModelPart.convert]

/-- C7: the spec §8 end-to-end scenario.  Converting the root group `"root"`
with the single cube child `"box"` yields exactly one element — named
`"box"`, of cube variant, with the `up` face carrying uv `[0,0,16,16]` and
texture index 0 and the other five faces absent — and an outliner consisting
of one group named `"root"` whose single child is an element reference equal
to that element's identifier. -/
theorem box_scenario :
    ∃ gu u,
      ModelPart.convert rootGroup [] =
        some (.group (.mk "root" (0, 0, 0) 0 gu true false false false true 0
          [.element u]),
          [{ origin := (0, 0, 0), name := "box", uuid := u,
             visibility := some true, locked := false, render_order := none,
             allow_mirror_modeling := true, export' := some true, color := 0,
             rotation := (0, 0, 0),
             extra := .cube (0, 0, 0) (1, 1, 1) none
               ⟨none, none, none, none, some ⟨(0, 0, 16, 16), some 0, 0⟩, none⟩
               none false 0 none (some false) (some 0) none }]) := by
  refine ⟨rootGroup.get_uuid_with_salt 0, boxCube.get_uuid_with_salt 0, ?_⟩
  simp [rootGroup, boxCube, ModelPart.convert, ModelPart.convertList,
    Sided.toFaces, Face.intoBb]

/-- C6: a group with two structurally identical cube children that differ
only in float fields (e.g. pivot) converts to two elements — and two
element references — with distinct identifiers, because each child's
conversion is salted with the length of the element list at the time of its
call. -/
theorem sibling_refs_distinct (g c1 c2 : ModelPart) (es : List Element)
    (hsalt : es.length + 1 < 2 ^ 64)
    (hdata : g.data = .group) (hchld : g.chld = [c1, c2])
    (hnr : c1.nr = none) (hc1chld : c1.chld = [])
    (hcube : ∃ cd f t inf, c1.data = .cube cd f t inf)
    (heq : ModelPart.floatEquiv c1 c2 = true) :
    ∃ gu u1 u2 e1 e2,
      ModelPart.convert g es =
        some (.group (.mk g.name g.piv 0 gu true false false false true 0
          [.element u1, .element u2]), es ++ [e1, e2]) ∧
      e1.uuid = u1 ∧ e2.uuid = u2 ∧ u1 ≠ u2 := by
  obtain ⟨cd, f, t, inf, hc1data⟩ := hcube
  cases g with
  | mk gname gchld ganim grot gpiv gpri gsec gpt gvsb gsmo gdata gnr gcn gpr =>
  simp only [ModelPart.data] at hdata
  simp only [ModelPart.chld] at hchld
  subst hdata hchld
  cases c1 with
  | mk n1 ch1 a1 r1 p1 pri1 sec1 pt1 v1 sm1 d1 nr1 cn1 pr1 =>
  simp only [ModelPart.data] at hc1data
  simp only [ModelPart.chld] at hc1chld
  simp only [ModelPart.nr] at hnr
  subst hc1data hc1chld hnr
  cases c2 with
  | mk n2 ch2 a2 r2 p2 pri2 sec2 pt2 v2 sm2 d2 nr2 cn2 pr2 =>
  have heq' := heq
  simp only [ModelPart.floatEquiv, Bool.and_eq_true, decide_eq_true_eq] at heq'
  obtain ⟨⟨⟨⟨⟨⟨⟨⟨⟨⟨⟨_hname, hch⟩, _hanim⟩, _hpri⟩, _hsec⟩, _hpt⟩, _hv⟩,
    _hsm⟩, hdata2⟩, hnr2⟩, _hcn2⟩, _hpr2⟩ := heq'
  have hch2 : ch2 = [] := by
    cases ch2 with
    | nil => rfl
    | cons x xs => simp [ModelPart.floatEquivList] at hch
  subst hch2
  obtain ⟨cd2, f2, t2, inf2, hd2⟩ :
      ∃ cd2 f2 t2 inf2, d2 = ModelData.cube cd2 f2 t2 inf2 := by
    cases d2 with
    | group => simp [ModelData.floatEquiv] at hdata2
    | cube cd2 f2 t2 inf2 => exact ⟨cd2, f2, t2, inf2, rfl⟩
    | mesh m => simp [ModelData.floatEquiv] at hdata2
  subst hd2
  have hnr2' : nr2 = none := hnr2.symm
  subst hnr2'
  have htok := hashTokens_congr _ _ heq
  refine ⟨ModelPart.get_uuid_with_salt
      (.mk gname
        [.mk n1 [] a1 r1 p1 pri1 sec1 pt1 v1 sm1 (.cube cd f t inf) none cn1 pr1,
          .mk n2 [] a2 r2 p2 pri2 sec2 pt2 v2 sm2 (.cube cd2 f2 t2 inf2) none cn2 pr2]
        ganim grot gpiv gpri gsec gpt gvsb gsmo .group gnr gcn gpr) es.length,
    ModelPart.get_uuid_with_salt
      (.mk n1 [] a1 r1 p1 pri1 sec1 pt1 v1 sm1 (.cube cd f t inf) none cn1 pr1)
      es.length,
    ModelPart.get_uuid_with_salt
      (.mk n2 [] a2 r2 p2 pri2 sec2 pt2 v2 sm2 (.cube cd2 f2 t2 inf2) none cn2 pr2)
      (es.length + 1),
    { origin := p1, name := n1,
      uuid := ModelPart.get_uuid_with_salt
        (.mk n1 [] a1 r1 p1 pri1 sec1 pt1 v1 sm1 (.cube cd f t inf) none cn1 pr1)
        es.length,
      visibility := some v1, locked := false, render_order := none,
      allow_mirror_modeling := true, export' := some true, color := 0,
      rotation := r1,
      extra := .cube f t none cd.toFaces none false 0 none (some false)
        (some inf) none },
    { origin := p2, name := n2,
      uuid := ModelPart.get_uuid_with_salt
        (.mk n2 [] a2 r2 p2 pri2 sec2 pt2 v2 sm2 (.cube cd2 f2 t2 inf2) none cn2 pr2)
        (es.length + 1),
      visibility := some v2, locked := false, render_order := none,
      allow_mirror_modeling := true, export' := some true, color := 0,
      rotation := r2,
      extra := .cube f2 t2 none cd2.toFaces none false 0 none (some false)
        (some inf2) none },
    ?_, rfl, rfl, ?_⟩
  · simp [ModelPart.convert, ModelPart.convertList, ModelPart.name,
      ModelPart.piv]
  · intro huv
    have hlo := congrArg Uuid.lo huv
    simp only [ModelPart.get_uuid_with_salt, ModelPart.nr, uuidV5] at hlo
    rw [htok] at hlo
    exact hasherFinish_cons_ne es.length (es.length + 1) _
      (by
        rw [Nat.mod_eq_of_lt (by omega), Nat.mod_eq_of_lt hsalt]
        omega) hlo

/-- Witness for C6 at the concrete twin-cube group. -/
theorem sibling_refs_distinct_witness :
    ([] : List Element).length + 1 < 2 ^ 64 ∧
    twinParent.data = .group ∧ twinParent.chld = [twinCubeA, twinCubeB] ∧
    twinCubeA.nr = none ∧ twinCubeA.chld = [] ∧
    ModelPart.floatEquiv twinCubeA twinCubeB = true ∧
    (∃ gu u1 u2 e1 e2,
      ModelPart.convert twinParent [] =
        some (.group (.mk twinParent.name twinParent.piv 0 gu true false false
          false true 0 [.element u1, .element u2]), [] ++ [e1, e2]) ∧
      e1.uuid = u1 ∧ e2.uuid = u2 ∧ u1 ≠ u2) :=
  ⟨by norm_num, rfl, rfl, rfl, rfl, rfl,
    sibling_refs_distinct twinParent twinCubeA twinCubeB [] (by norm_num)
      rfl rfl rfl rfl ⟨emptySided, (0, 0, 0), (1, 1, 1), 0, rfl⟩ rfl⟩

/-- Accumulated element lists only grow, and every reference produced by a
list of conversions resolves into the final list. -/
theorem convertList_refs_resolve :
    ∀ cs : List ModelPart,
      (∀ c ∈ cs, ∀ es item es', ModelPart.convert c es = some (item, es') →
        (∃ tail, es' = es ++ tail) ∧
        (∀ u, item = .element u → ∃ e, es' = es ++ [e] ∧ e.uuid = u) ∧
        (∀ u, u ∈ item.refs → ∃ e, e ∈ es' ∧ e.uuid = u)) →
      ∀ es items es', ModelPart.convertList cs es = some (items, es') →
        (∃ tail, es' = es ++ tail) ∧
        (∀ u, u ∈ OutlinerItem.refsList items → ∃ e, e ∈ es' ∧ e.uuid = u) := by
  intro cs
  induction cs with
  | nil =>
    intro _ es items es' h
    simp only [ModelPart.convertList, Option.some.injEq, Prod.mk.injEq] at h
    obtain ⟨h1, h2⟩ := h
    subst h1
    subst h2
    exact ⟨⟨[], by simp⟩, by simp [OutlinerItem.refsList]⟩
  | cons c cs ih =>
    intro hpt es items es' h
    simp only [ModelPart.convertList] at h
    split at h
    · exact absurd h (by simp)
    · rename_i item1 es1 hc
      split at h
      · exact absurd h (by simp)
      · rename_i items2 es2 hcl
        simp only [Option.some.injEq, Prod.mk.injEq] at h
        obtain ⟨hitems, hes⟩ := h
        subst hitems
        subst hes
        obtain ⟨⟨t1, ht1⟩, _hel, hrefs1⟩ :=
          hpt c (List.mem_cons_self _ _) es item1 es1 hc
        obtain ⟨⟨t2, ht2⟩, hrefs2⟩ :=
          ih (fun x hx => hpt x (List.mem_cons_of_mem _ hx)) es1 items2 es2 hcl
        constructor
        · exact ⟨t1 ++ t2, by rw [ht2, ht1, List.append_assoc]⟩
        · intro u hu
          simp only [OutlinerItem.refsList, List.mem_append] at hu
          cases hu with
          | inl h1 =>
            obtain ⟨e, he, heq⟩ := hrefs1 u h1
            exact ⟨e, by rw [ht2]; exact List.mem_append_left _ he, heq⟩
          | inr h2 => exact hrefs2 u h2

/-- C10: a conversion call only appends to the element list; whenever it
returns an element reference it has appended exactly one element whose
identifier the reference carries; and every element reference anywhere in the
returned outliner item resolves to an element of the final list. -/
theorem convert_refs_resolve :
    ∀ (p : ModelPart) (es : List Element) (item : OutlinerItem)
      (es' : List Element),
      ModelPart.convert p es = some (item, es') →
      (∃ tail, es' = es ++ tail) ∧
      (∀ u, item = .element u → ∃ e, es' = es ++ [e] ∧ e.uuid = u) ∧
      (∀ u, u ∈ item.refs → ∃ e, e ∈ es' ∧ e.uuid = u) := by
  refine ModelPart.inductionOn ?_
  intro name chld anim rot piv primary secondary pt vsb smo data nr cn pr ih
    es item es' h
  cases data with
  | group =>
    simp only [ModelPart.convert] at h
    split at h
    · exact absurd h (by simp)
    · rename_i items es2 hcl
      simp only [Option.some.injEq, Prod.mk.injEq] at h
      obtain ⟨hitem, hes⟩ := h
      obtain ⟨⟨t, ht⟩, hrefs⟩ := convertList_refs_resolve chld ih es items es2 hcl
      subst hes
      refine ⟨⟨t, ht⟩, ?_, ?_⟩
      · intro u hu
        rw [← hitem] at hu
        exact absurd hu (by simp)
      · intro u hu
        rw [← hitem] at hu
        simp only [OutlinerItem.refs] at hu
        exact hrefs u hu
  | cube cd f t inf =>
    simp only [ModelPart.convert] at h
    by_cases hz : chld.length = 0
    · rw [if_pos hz] at h
      simp only [Option.some.injEq, Prod.mk.injEq] at h
      obtain ⟨hitem, hes⟩ := h
      subst hes
      refine ⟨⟨_, rfl⟩, ?_, ?_⟩
      · intro u hu
        rw [← hitem] at hu
        simp only [OutlinerItem.element.injEq] at hu
        exact ⟨_, rfl, hu⟩
      · intro u hu
        rw [← hitem] at hu
        simp only [OutlinerItem.refs, List.mem_singleton] at hu
        exact ⟨_, List.mem_append_right _ (List.mem_singleton_self _), hu.symm⟩
    · rw [if_neg hz] at h
      exact absurd h (by simp)
  | mesh md =>
    simp only [ModelPart.convert, Option.some.injEq, Prod.mk.injEq] at h
    obtain ⟨hitem, hes⟩ := h
    subst hes
    refine ⟨⟨[], by simp⟩, ?_, ?_⟩
    · intro u hu
      rw [← hitem] at hu
      exact absurd hu (by simp)
    · intro u hu
      rw [← hitem] at hu
      simp [OutlinerItem.refs, OutlinerItem.refsList] at hu

/-- Witness for C10 at the lone cube `soloCube`. -/
theorem convert_refs_resolve_witness :
    (∃ tail, [soloElement] = [] ++ tail) ∧
    (∀ u, OutlinerItem.element soloElement.uuid = .element u →
      ∃ e, [soloElement] = ([] : List Element) ++ [e] ∧ e.uuid = u) ∧
    (∀ u, u ∈ (OutlinerItem.element soloElement.uuid).refs →
      ∃ e, e ∈ [soloElement] ∧ e.uuid = u) :=
  convert_refs_resolve soloCube [] (.element soloElement.uuid) [soloElement]
    (by simp [ModelPart.convert, soloCube, soloElement, emptySided])

/-! ### Round-trip lemmas, bottom up -/

theorem asVec3_roundtrip (v : Vec3) : asVec3 (encodeVec3 v) = some v := by
  obtain ⟨a, b, c⟩ := v
  rfl

theorem asVec4_roundtrip (v : Vec4) : asVec4 (encodeVec4 v) = some v := by
  obtain ⟨a, b, c, d⟩ := v
  rfl

theorem asBool_roundtrip (b : Bool) : asBool (encodeBool b) = some b := by
  cases b <;> rfl

theorem mapMOpt_map {α β : Type} (g : α → β) (f : β → Option α)
    (h : ∀ a, f (g a) = some a) : ∀ xs : List α, mapMOpt f (xs.map g) = some xs := by
  intro xs
  induction xs with
  | nil => rfl
  | cons x xs ih => simp [mapMOpt, h, ih]

theorem mapM_asDouble (xs : List F64) :
    mapMOpt asDouble (xs.map Nbt.double) = some xs :=
  mapMOpt_map Nbt.double asDouble (fun _ => rfl) xs

theorem mapM_asNum (xs : List Nat) :
    mapMOpt asNum (xs.map Nbt.num) = some xs :=
  mapMOpt_map Nbt.num asNum (fun _ => rfl) xs

theorem mapM_asString (xs : List String) :
    mapMOpt asString (xs.map Nbt.string) = some xs :=
  mapMOpt_map Nbt.string asString (fun _ => rfl) xs

theorem asStrMap_roundtrip (m : List (String × List Nat)) :
    asStrMap (encodeStrMap m) = some m := by
  simp only [asStrMap, encodeStrMap]
  exact mapMOpt_map (fun kv : String × List Nat => (kv.1, Nbt.byteArray kv.2))
    (fun kv => (asBytes kv.2).map fun bs => (kv.1, bs)) (fun _ => rfl) m

theorem parseParentType_roundtrip (p : ParentType) :
    parseParentType (ptName p) = some p := by
  cases p <;> rfl

theorem face_roundtrip (f : Face) : asFace (encodeFace f) = some f := by
  obtain ⟨tex, ⟨a, b, c, d⟩, rot⟩ := f
  rfl

theorem sided_roundtrip (sd : Sided) : asSided (encodeSided sd) = some sd := by
  obtain ⟨n, s, u, d, w, e⟩ := sd
  cases n <;> cases s <;> cases u <;> cases d <;> cases w <;> cases e <;>
    simp [asSided, encodeSided, optField, decodeSidedFields, setOnce,
      face_roundtrip]

theorem meshData_roundtrip (m : MeshData) :
    decodeMeshFields [("vtx", .list (m.vtx.map Nbt.double)),
      ("tex", .list (m.tex.map Nbt.num)), ("fac", .list (m.fac.map Nbt.num)),
      ("uvs", .list (m.uvs.map Nbt.double))] {} = some m := by
  simp [decodeMeshFields, setOnce, asDoubleList, asNumList, mapM_asDouble,
    mapM_asNum]

theorem modelData_roundtrip (d : ModelData) :
    decodeModelData (modelDataFields d) = some d := by
  cases d with
  | group => rfl
  | cube cd f t inf =>
    simp [modelDataFields, decodeModelData, decodeCubeFields, setOnce,
      sided_roundtrip, asVec3_roundtrip, asDouble]
  | mesh md =>
    simp [modelDataFields, decodeModelData, decodeCubeFields,
      decodeMeshVariant, encodeMeshData, meshData_roundtrip]

/-! ### Stepping lemmas for the sequential `ModelPart` deserializer

Each lemma consumes one serialized field (or optional-field segment) from the
front of the entry list, moving its decoded value into the accumulator. -/

theorem partStepName (s : String) (rest : List (String × Nbt))
    (c : Option (List ModelPart)) (a : Option Nbt) (r p : Option Vec3)
    (pri sec : Option String) (pt : Option ParentType) (v sm : Option Bool)
    (nr : Option (Nat × Nat × Nat × Nat)) (cn : Option (List String))
    (pr : Option (List Nat)) (lv : List (String × Nbt)) :
    decodePartFields (("name", .string s) :: rest)
      ⟨none, c, a, r, p, pri, sec, pt, v, sm, nr, cn, pr, lv⟩ =
    decodePartFields rest ⟨some s, c, a, r, p, pri, sec, pt, v, sm, nr, cn, pr, lv⟩ := by
  simp [decodePartFields, partStep, setOnce, asString]

theorem partStepChld {xs : List Nbt} {cs : List ModelPart}
    (hxs : decodeParts xs = some cs) (rest : List (String × Nbt))
    (n : Option String) (a : Option Nbt) (r p : Option Vec3)
    (pri sec : Option String) (pt : Option ParentType) (v sm : Option Bool)
    (nr : Option (Nat × Nat × Nat × Nat)) (cn : Option (List String))
    (pr : Option (List Nat)) (lv : List (String × Nbt)) :
    decodePartFields (("chld", .list xs) :: rest)
      ⟨n, none, a, r, p, pri, sec, pt, v, sm, nr, cn, pr, lv⟩ =
    decodePartFields rest ⟨n, some cs, a, r, p, pri, sec, pt, v, sm, nr, cn, pr, lv⟩ := by
  simp [decodePartFields, partStep, hxs]

theorem partStepAnim (o : Option Nbt) (rest : List (String × Nbt))
    (n : Option String) (c : Option (List ModelPart)) (r p : Option Vec3)
    (pri sec : Option String) (pt : Option ParentType) (v sm : Option Bool)
    (nr : Option (Nat × Nat × Nat × Nat)) (cn : Option (List String))
    (pr : Option (List Nat)) (lv : List (String × Nbt)) :
    decodePartFields (optField "anim" (fun x => x) o ++ rest)
      ⟨n, c, none, r, p, pri, sec, pt, v, sm, nr, cn, pr, lv⟩ =
    decodePartFields rest ⟨n, c, o, r, p, pri, sec, pt, v, sm, nr, cn, pr, lv⟩ := by
  cases o with
  | none => simp [optField]
  | some v => cases v <;> simp [decodePartFields, partStep, optField]

theorem partStepRot (r3 : Vec3) (rest : List (String × Nbt))
    (n : Option String) (c : Option (List ModelPart)) (a : Option Nbt)
    (p : Option Vec3) (pri sec : Option String) (pt : Option ParentType)
    (v sm : Option Bool) (nr : Option (Nat × Nat × Nat × Nat))
    (cn : Option (List String)) (pr : Option (List Nat))
    (lv : List (String × Nbt)) :
    decodePartFields (("rot", encodeVec3 r3) :: rest)
      ⟨n, c, a, none, p, pri, sec, pt, v, sm, nr, cn, pr, lv⟩ =
    decodePartFields rest ⟨n, c, a, some r3, p, pri, sec, pt, v, sm, nr, cn, pr, lv⟩ := by
  simp [decodePartFields, partStep, setOnce, encodeVec3, asVec3]

theorem partStepPiv (p3 : Vec3) (rest : List (String × Nbt))
    (n : Option String) (c : Option (List ModelPart)) (a : Option Nbt)
    (r : Option Vec3) (pri sec : Option String) (pt : Option ParentType)
    (v sm : Option Bool) (nr : Option (Nat × Nat × Nat × Nat))
    (cn : Option (List String)) (pr : Option (List Nat))
    (lv : List (String × Nbt)) :
    decodePartFields (("piv", encodeVec3 p3) :: rest)
      ⟨n, c, a, r, none, pri, sec, pt, v, sm, nr, cn, pr, lv⟩ =
    decodePartFields rest ⟨n, c, a, r, some p3, pri, sec, pt, v, sm, nr, cn, pr, lv⟩ := by
  simp [decodePartFields, partStep, setOnce, encodeVec3, asVec3]

theorem partStepPrimary (o : Option String) (rest : List (String × Nbt))
    (n : Option String) (c : Option (List ModelPart)) (a : Option Nbt)
    (r p : Option Vec3) (sec : Option String) (pt : Option ParentType)
    (v sm : Option Bool) (nr : Option (Nat × Nat × Nat × Nat))
    (cn : Option (List String)) (pr : Option (List Nat))
    (lv : List (String × Nbt)) :
    decodePartFields (optField "primary" Nbt.string o ++ rest)
      ⟨n, c, a, r, p, none, sec, pt, v, sm, nr, cn, pr, lv⟩ =
    decodePartFields rest ⟨n, c, a, r, p, o, sec, pt, v, sm, nr, cn, pr, lv⟩ := by
  cases o <;> simp [decodePartFields, partStep, optField, setOnce, asString]

theorem partStepSecondary (o : Option String) (rest : List (String × Nbt))
    (n : Option String) (c : Option (List ModelPart)) (a : Option Nbt)
    (r p : Option Vec3) (pri : Option String) (pt : Option ParentType)
    (v sm : Option Bool) (nr : Option (Nat × Nat × Nat × Nat))
    (cn : Option (List String)) (pr : Option (List Nat))
    (lv : List (String × Nbt)) :
    decodePartFields (optField "secondary" Nbt.string o ++ rest)
      ⟨n, c, a, r, p, pri, none, pt, v, sm, nr, cn, pr, lv⟩ =
    decodePartFields rest ⟨n, c, a, r, p, pri, o, pt, v, sm, nr, cn, pr, lv⟩ := by
  cases o <;> simp [decodePartFields, partStep, optField, setOnce, asString]

theorem partStepPt (o : Option ParentType) (rest : List (String × Nbt))
    (n : Option String) (c : Option (List ModelPart)) (a : Option Nbt)
    (r p : Option Vec3) (pri sec : Option String) (v sm : Option Bool)
    (nr : Option (Nat × Nat × Nat × Nat)) (cn : Option (List String))
    (pr : Option (List Nat)) (lv : List (String × Nbt)) :
    decodePartFields (optField "pt" (fun q => .string (ptName q)) o ++ rest)
      ⟨n, c, a, r, p, pri, sec, none, v, sm, nr, cn, pr, lv⟩ =
    decodePartFields rest ⟨n, c, a, r, p, pri, sec, o, v, sm, nr, cn, pr, lv⟩ := by
  cases o <;> simp [decodePartFields, partStep, optField, setOnce, asString,
    parseParentType_roundtrip]

theorem partStepVsb (b : Bool) (rest : List (String × Nbt))
    (n : Option String) (c : Option (List ModelPart)) (a : Option Nbt)
    (r p : Option Vec3) (pri sec : Option String) (pt : Option ParentType)
    (sm : Option Bool) (nr : Option (Nat × Nat × Nat × Nat))
    (cn : Option (List String)) (pr : Option (List Nat))
    (lv : List (String × Nbt)) :
    decodePartFields (("vsb", encodeBool b) :: rest)
      ⟨n, c, a, r, p, pri, sec, pt, none, sm, nr, cn, pr, lv⟩ =
    decodePartFields rest ⟨n, c, a, r, p, pri, sec, pt, some b, sm, nr, cn, pr, lv⟩ := by
  cases b <;> simp [decodePartFields, partStep, setOnce, encodeBool, asBool]

theorem partStepSmo (b : Bool) (rest : List (String × Nbt))
    (n : Option String) (c : Option (List ModelPart)) (a : Option Nbt)
    (r p : Option Vec3) (pri sec : Option String) (pt : Option ParentType)
    (v : Option Bool) (nr : Option (Nat × Nat × Nat × Nat))
    (cn : Option (List String)) (pr : Option (List Nat))
    (lv : List (String × Nbt)) :
    decodePartFields (("smo", encodeBool b) :: rest)
      ⟨n, c, a, r, p, pri, sec, pt, v, none, nr, cn, pr, lv⟩ =
    decodePartFields rest ⟨n, c, a, r, p, pri, sec, pt, v, some b, nr, cn, pr, lv⟩ := by
  cases b <;> simp [decodePartFields, partStep, setOnce, encodeBool, asBool]

theorem partStepData (d : ModelData) (rest : List (String × Nbt))
    (n : Option String) (c : Option (List ModelPart)) (a : Option Nbt)
    (r p : Option Vec3) (pri sec : Option String) (pt : Option ParentType)
    (v sm : Option Bool) (nr : Option (Nat × Nat × Nat × Nat))
    (cn : Option (List String)) (pr : Option (List Nat))
    (lv : List (String × Nbt)) :
    decodePartFields (modelDataFields d ++ rest)
      ⟨n, c, a, r, p, pri, sec, pt, v, sm, nr, cn, pr, lv⟩ =
    decodePartFields rest
      ⟨n, c, a, r, p, pri, sec, pt, v, sm, nr, cn, pr, lv ++ modelDataFields d⟩ := by
  cases d <;> simp [modelDataFields, decodePartFields, partStep, encodeSided,
    encodeVec3, encodeMeshData]

theorem partStepNr (o : Option (Nat × Nat × Nat × Nat))
    (rest : List (String × Nbt))
    (n : Option String) (c : Option (List ModelPart)) (a : Option Nbt)
    (r p : Option Vec3) (pri sec : Option String) (pt : Option ParentType)
    (v sm : Option Bool) (cn : Option (List String)) (pr : Option (List Nat))
    (lv : List (String × Nbt)) :
    decodePartFields
      (optField "nr" (fun x => .list [.num x.1, .num x.2.1, .num x.2.2.1, .num x.2.2.2]) o
        ++ rest)
      ⟨n, c, a, r, p, pri, sec, pt, v, sm, none, cn, pr, lv⟩ =
    decodePartFields rest ⟨n, c, a, r, p, pri, sec, pt, v, sm, o, cn, pr, lv⟩ := by
  cases o with
  | none => simp [optField]
  | some x =>
    obtain ⟨x0, x1, x2, x3⟩ := x
    simp [decodePartFields, partStep, optField, setOnce, asNr]

theorem partStepCn (o : Option (List String)) (rest : List (String × Nbt))
    (n : Option String) (c : Option (List ModelPart)) (a : Option Nbt)
    (r p : Option Vec3) (pri sec : Option String) (pt : Option ParentType)
    (v sm : Option Bool) (nr : Option (Nat × Nat × Nat × Nat))
    (pr : Option (List Nat)) (lv : List (String × Nbt)) :
    decodePartFields
      (optField "cn" (fun xs => .list (xs.map Nbt.string)) o ++ rest)
      ⟨n, c, a, r, p, pri, sec, pt, v, sm, nr, none, pr, lv⟩ =
    decodePartFields rest ⟨n, c, a, r, p, pri, sec, pt, v, sm, nr, o, pr, lv⟩ := by
  cases o <;> simp [decodePartFields, partStep, optField, setOnce, asStringList,
    mapM_asString]

/-- All the step lemmas composed: a serialized part list decodes back. -/
theorem parts_roundtrip_list (cs : List ModelPart)
    (ih : ∀ c ∈ cs, decodePartFields (encodePartFields c) {} = some c) :
    decodeParts (encodeParts cs) = some cs := by
  induction cs with
  | nil => simp [encodeParts, decodeParts]
  | cons c cs ihl =>
    simp [encodeParts, decodeParts, ih c (List.mem_cons_self _ _),
      ihl fun x hx => ih x (List.mem_cons_of_mem _ hx)]

/-- The serialized form of a `ModelPart` decodes back to it. -/
theorem part_roundtrip : ∀ p : ModelPart,
    decodePartFields (encodePartFields p) {} = some p := by
  refine ModelPart.inductionOn ?_
  intro name chld anim rot piv primary secondary pt vsb smo data nr cn pr ih
  have hlist := parts_roundtrip_list chld ih
  simp only [encodePartFields]
  rw [partStepName, partStepChld hlist, partStepAnim, partStepRot, partStepPiv,
    partStepPrimary, partStepSecondary, partStepPt, partStepVsb, partStepSmo,
    partStepData, partStepNr, partStepCn]
  cases pr <;> simp [decodePartFields, partStep, finishPart, optField, setOnce,
    asNumList, mapM_asNum, modelData_roundtrip]

theorem textureData_roundtrip (td : TextureData) :
    decodeTextureDataFields (textureDataFields td) {} = some td := by
  obtain ⟨d, e⟩ := td
  cases e <;> rfl

theorem textureDataList_roundtrip (ts : List TextureData) :
    asTextureDataList (.list (ts.map fun td => .compound (textureDataFields td))) =
      some ts := by
  simp only [asTextureDataList]
  exact mapMOpt_map (fun td => Nbt.compound (textureDataFields td))
    (fun x => match x with
      | Nbt.compound fs => decodeTextureDataFields fs {}
      | _ => none)
    (fun td => textureData_roundtrip td) ts

theorem textures_roundtrip (t : Textures) :
    decodeTexturesFields (texturesFields t) {} = some t := by
  obtain ⟨src, data⟩ := t
  simp [texturesFields, decodeTexturesFields, setOnce, asStrMap_roundtrip,
    textureDataList_roundtrip]

theorem metadata_roundtrip (m : Metadata) :
    decodeMetadataFields (metadataFields m) {} = some m := by
  obtain ⟨uuid, authors, color, bg, id, nm, desc, ver⟩ := m
  cases color <;> cases bg <;> cases id <;> rfl

/-- C1: decoding the bytes produced by encoding a bundle yields the bundle
back, for every compression level; the level only affects the gzip framing,
never the decoded content. -/
theorem decode_encode_roundtrip (level : Nat) (m : Moon) :
    Moon.decode (Moon.encode level m) = some m := by
  obtain ⟨tex, scripts, anims, models, res, meta⟩ := m
  cases models with
  | none =>
    simp [Moon.encode, Moon.decode, moonFields, decodeMoonFields, setOnce,
      optField, asTextures, textures_roundtrip, asStrMap_roundtrip, asNbtList,
      asMetadata, metadata_roundtrip]
  | some p =>
    simp [Moon.encode, Moon.decode, moonFields, decodeMoonFields, setOnce,
      optField, asTextures, textures_roundtrip, asStrMap_roundtrip, asNbtList,
      asMetadata, metadata_roundtrip, asModelPart, part_roundtrip]

/-! ### Unknown fields are decode errors (spec §4.4) -/

/-- Feeding one entry to a field visitor either fails or recurses with some
updated accumulator. -/
theorem moonBindStep {α : Type} (o : Option α) (g : α → MoonAcc)
    (rest : List (String × Nbt)) :
    (o.bind fun x => decodeMoonFields rest (g x)) = none ∨
    ∃ acc', (o.bind fun x => decodeMoonFields rest (g x)) =
      decodeMoonFields rest acc' := by
  cases o with
  | none => exact Or.inl rfl
  | some x => exact Or.inr ⟨g x, rfl⟩

/-- One `Moon` entry: a decode error or a recursion. -/
theorem decodeMoonFields_cons_step (k : String) (v : Nbt)
    (rest : List (String × Nbt)) (acc : MoonAcc) :
    decodeMoonFields ((k, v) :: rest) acc = none ∨
    ∃ acc', decodeMoonFields ((k, v) :: rest) acc = decodeMoonFields rest acc' := by
  simp only [decodeMoonFields]
  split_ifs <;> first
    | exact moonBindStep _ _ _
    | exact Or.inl rfl

/-- An unrecognized key at the head of a `Moon` compound is an immediate
error. -/
theorem decodeMoonFields_unknown_head (k : String) (v : Nbt)
    (rest : List (String × Nbt)) (acc : MoonAcc) (hk : k ∉ moonKeys) :
    decodeMoonFields ((k, v) :: rest) acc = none := by
  simp only [moonKeys, List.mem_cons, List.not_mem_nil, or_false, not_or] at hk
  obtain ⟨h1, h2, h3, h4, h5, h6⟩ := hk
  simp [decodeMoonFields, h1, h2, h3, h4, h5, h6]

/-- A `Moon` compound containing any unrecognized key fails to decode. -/
theorem decodeMoonFields_unknown :
    ∀ (fields : List (String × Nbt)) (acc : MoonAcc) (k : String) (v : Nbt),
      (k, v) ∈ fields → k ∉ moonKeys → decodeMoonFields fields acc = none := by
  intro fields
  induction fields with
  | nil =>
    intro acc k v hm _
    exact absurd hm (List.not_mem_nil _)
  | cons kv rest ih =>
    intro acc k v hm hk
    obtain ⟨k', v'⟩ := kv
    rcases List.mem_cons.mp hm with heq | hm'
    · cases heq
      exact decodeMoonFields_unknown_head k v rest acc hk
    · rcases decodeMoonFields_cons_step k' v' rest acc with hnone | ⟨acc', heq⟩
      · exact hnone
      · rw [heq]
        exact ih acc' k v hm' hk

/-- `partStep` only ever grows the leftover buffer. -/
theorem partStep_mono (k : String) (v : Nbt) (acc acc' : PartAcc)
    (h : partStep k v acc = some acc') :
    ∀ x, x ∈ acc.leftover → x ∈ acc'.leftover := by
  simp only [partStep] at h
  by_cases hK : k = "name"
  · rw [if_pos hK] at h
    obtain ⟨a, _, rfl⟩ := Option.map_eq_some'.mp h
    exact fun x hx => hx
  rw [if_neg hK] at h
  clear hK
  by_cases hK : k = "anim"
  · rw [if_pos hK] at h
    revert h
    cases acc.anim with
    | some a => intro h; exact absurd h (by simp)
    | none =>
      intro h
      cases h
      exact fun x hx => hx
  rw [if_neg hK] at h
  clear hK
  by_cases hK : k = "rot"
  · rw [if_pos hK] at h
    obtain ⟨a, _, rfl⟩ := Option.map_eq_some'.mp h
    exact fun x hx => hx
  rw [if_neg hK] at h
  clear hK
  by_cases hK : k = "piv"
  · rw [if_pos hK] at h
    obtain ⟨a, _, rfl⟩ := Option.map_eq_some'.mp h
    exact fun x hx => hx
  rw [if_neg hK] at h
  clear hK
  by_cases hK : k = "primary"
  · rw [if_pos hK] at h
    obtain ⟨a, _, rfl⟩ := Option.map_eq_some'.mp h
    exact fun x hx => hx
  rw [if_neg hK] at h
  clear hK
  by_cases hK : k = "secondary"
  · rw [if_pos hK] at h
    obtain ⟨a, _, rfl⟩ := Option.map_eq_some'.mp h
    exact fun x hx => hx
  rw [if_neg hK] at h
  clear hK
  by_cases hK : k = "pt"
  · rw [if_pos hK] at h
    obtain ⟨a, _, rfl⟩ := Option.map_eq_some'.mp h
    exact fun x hx => hx
  rw [if_neg hK] at h
  clear hK
  by_cases hK : k = "vsb"
  · rw [if_pos hK] at h
    obtain ⟨a, _, rfl⟩ := Option.map_eq_some'.mp h
    exact fun x hx => hx
  rw [if_neg hK] at h
  clear hK
  by_cases hK : k = "smo"
  · rw [if_pos hK] at h
    obtain ⟨a, _, rfl⟩ := Option.map_eq_some'.mp h
    exact fun x hx => hx
  rw [if_neg hK] at h
  clear hK
  by_cases hK : k = "nr"
  · rw [if_pos hK] at h
    obtain ⟨a, _, rfl⟩ := Option.map_eq_some'.mp h
    exact fun x hx => hx
  rw [if_neg hK] at h
  clear hK
  by_cases hK : k = "cn"
  · rw [if_pos hK] at h
    obtain ⟨a, _, rfl⟩ := Option.map_eq_some'.mp h
    exact fun x hx => hx
  rw [if_neg hK] at h
  clear hK
  by_cases hK : k = "pr"
  · rw [if_pos hK] at h
    obtain ⟨a, _, rfl⟩ := Option.map_eq_some'.mp h
    exact fun x hx => hx
  rw [if_neg hK] at h
  clear hK
  cases h
  exact fun x hx => List.mem_append_left _ hx

/-- An unrecognized key is buffered verbatim by `partStep`. -/
theorem partStep_unknown (k : String) (v : Nbt) (acc : PartAcc)
    (hk : k ∉ partKeys) :
    partStep k v acc = some {acc with leftover := acc.leftover ++ [(k, v)]} := by
  simp only [partKeys, List.mem_cons, List.not_mem_nil, or_false, not_or] at hk
  obtain ⟨h1, h2, h3, h4, h5, h6, h7, h8, h9, h10, h11, h12, h13⟩ := hk
  simp [partStep, h1, h3, h4, h5, h6, h7, h8, h9, h10, h11, h12, h13]

/-- One `ModelPart` entry: a decode error or a recursion with a leftover
buffer that only grew. -/
theorem decodePartFields_cons_step (k : String) (v : Nbt)
    (rest : List (String × Nbt)) (acc : PartAcc) :
    decodePartFields ((k, v) :: rest) acc = none ∨
    ∃ acc', decodePartFields ((k, v) :: rest) acc = decodePartFields rest acc' ∧
      ∀ x, x ∈ acc.leftover → x ∈ acc'.leftover := by
  have hstep : ∀ w : Nbt,
      (match partStep k w acc with
        | some acc' => decodePartFields rest acc'
        | none => none) = none ∨
      ∃ acc', (match partStep k w acc with
        | some acc' => decodePartFields rest acc'
        | none => none) = decodePartFields rest acc' ∧
        ∀ x, x ∈ acc.leftover → x ∈ acc'.leftover := by
    intro w
    cases hps : partStep k w acc with
    | none => exact Or.inl rfl
    | some acc' => exact Or.inr ⟨acc', rfl, partStep_mono k w acc acc' hps⟩
  cases v with
  | list xs =>
    simp only [decodePartFields]
    by_cases hk : k = "chld"
    · rw [if_pos hk]
      cases acc.chld with
      | some _ => exact Or.inl rfl
      | none =>
        cases decodeParts xs with
        | none => exact Or.inl rfl
        | some cs => exact Or.inr ⟨_, rfl, fun x hx => hx⟩
    · rw [if_neg hk]
      exact hstep _
  | byte b =>
    simp only [decodePartFields]
    by_cases hk : k = "chld"
    · rw [if_pos hk]
      cases acc.chld <;> exact Or.inl rfl
    · rw [if_neg hk]
      exact hstep _
  | num n =>
    simp only [decodePartFields]
    by_cases hk : k = "chld"
    · rw [if_pos hk]
      cases acc.chld <;> exact Or.inl rfl
    · rw [if_neg hk]
      exact hstep _
  | double x =>
    simp only [decodePartFields]
    by_cases hk : k = "chld"
    · rw [if_pos hk]
      cases acc.chld <;> exact Or.inl rfl
    · rw [if_neg hk]
      exact hstep _
  | string s =>
    simp only [decodePartFields]
    by_cases hk : k = "chld"
    · rw [if_pos hk]
      cases acc.chld <;> exact Or.inl rfl
    · rw [if_neg hk]
      exact hstep _
  | byteArray bs =>
    simp only [decodePartFields]
    by_cases hk : k = "chld"
    · rw [if_pos hk]
      cases acc.chld <;> exact Or.inl rfl
    · rw [if_neg hk]
      exact hstep _
  | compound fs =>
    simp only [decodePartFields]
    by_cases hk : k = "chld"
    · rw [if_pos hk]
      cases acc.chld <;> exact Or.inl rfl
    · rw [if_neg hk]
      exact hstep _

theorem cubeBindStep {α : Type} (o : Option α) (g : α → CubeAcc)
    (rest : List (String × Nbt)) :
    (o.bind fun x => decodeCubeFields rest (g x)) = none ∨
    ∃ acc', (o.bind fun x => decodeCubeFields rest (g x)) =
      decodeCubeFields rest acc' := by
  cases o with
  | none => exact Or.inl rfl
  | some x => exact Or.inr ⟨g x, rfl⟩

/-- One `Cube`-variant entry: a decode error or a recursion. -/
theorem decodeCubeFields_cons_step (k : String) (v : Nbt)
    (rest : List (String × Nbt)) (acc : CubeAcc) :
    decodeCubeFields ((k, v) :: rest) acc = none ∨
    ∃ acc', decodeCubeFields ((k, v) :: rest) acc = decodeCubeFields rest acc' := by
  simp only [decodeCubeFields]
  split_ifs <;> first
    | exact cubeBindStep _ _ _
    | exact Or.inl rfl

/-- A key outside the schema rejects the `Cube` variant at once. -/
theorem decodeCubeFields_unknown_head (k : String) (v : Nbt)
    (rest : List (String × Nbt)) (acc : CubeAcc) (hk : k ∉ dataKeys) :
    decodeCubeFields ((k, v) :: rest) acc = none := by
  simp only [dataKeys, List.mem_cons, List.not_mem_nil, or_false, not_or] at hk
  obtain ⟨h1, h2, h3, h4, _⟩ := hk
  simp [decodeCubeFields, h1, h2, h3, h4]

/-- The `Cube` variant rejects a field set containing any key outside the
schema. -/
theorem decodeCubeFields_unknown :
    ∀ (fields : List (String × Nbt)) (acc : CubeAcc) (k : String) (v : Nbt),
      (k, v) ∈ fields → k ∉ dataKeys → decodeCubeFields fields acc = none := by
  intro fields
  induction fields with
  | nil =>
    intro acc k v hm _
    exact absurd hm (List.not_mem_nil _)
  | cons kv rest ih =>
    intro acc k v hm hk
    obtain ⟨k', v'⟩ := kv
    rcases List.mem_cons.mp hm with heq | hm'
    · cases heq
      exact decodeCubeFields_unknown_head k v rest acc hk
    · rcases decodeCubeFields_cons_step k' v' rest acc with hnone | ⟨acc', heq⟩
      · exact hnone
      · rw [heq]
        exact ih acc' k v hm' hk

/-- The `Mesh` variant rejects a field set containing any key outside the
schema. -/
theorem decodeMeshVariant_unknown (fields : List (String × Nbt)) (k : String)
    (v : Nbt) (hm : (k, v) ∈ fields) (hk : k ∉ dataKeys) :
    decodeMeshVariant fields = none := by
  rcases fields with _ | ⟨⟨k1, v1⟩, tl⟩
  · exact absurd hm (List.not_mem_nil _)
  rcases tl with _ | ⟨p2, tl2⟩
  · have heq : (k, v) = (k1, v1) := by simpa using hm
    cases heq
    have hne : k ≠ "mesh_data" := by
      intro h
      exact hk (by simp [dataKeys, h])
    cases v <;> simp [decodeMeshVariant, hne]
  · obtain ⟨k2, v2⟩ := p2
    cases v1 <;> simp [decodeMeshVariant]

/-- The untagged `ModelData` rejects a leftover set containing any key
outside the schema. -/
theorem decodeModelData_unknown (fields : List (String × Nbt)) (k : String)
    (v : Nbt) (hm : (k, v) ∈ fields) (hk : k ∉ dataKeys) :
    decodeModelData fields = none := by
  cases fields with
  | nil => exact absurd hm (List.not_mem_nil _)
  | cons hd tl =>
    simp only [decodeModelData]
    rw [decodeCubeFields_unknown _ _ k v hm hk]
    exact decodeMeshVariant_unknown _ k v hm hk

/-- A buffered unknown key makes the final `ModelPart` assembly fail. -/
theorem finishPart_unknown (acc : PartAcc) (k : String) (v : Nbt)
    (hm : (k, v) ∈ acc.leftover) (hk : k ∉ dataKeys) :
    finishPart acc = none := by
  simp only [finishPart, decodeModelData_unknown acc.leftover k v hm hk]
  cases acc.name <;> rfl

/-- A `ModelPart` compound containing any key recognized by neither the part
schema nor any `ModelData` variant fails to decode. -/
theorem decodePartFields_unknown :
    ∀ (fields : List (String × Nbt)) (acc : PartAcc) (k : String) (v : Nbt),
      ((k, v) ∈ fields ∨ (k, v) ∈ acc.leftover) → k ∉ partKeys → k ∉ dataKeys →
      decodePartFields fields acc = none := by
  intro fields
  induction fields with
  | nil =>
    intro acc k v hm hk1 hk2
    rcases hm with hm | hm
    · exact absurd hm (List.not_mem_nil _)
    · simp only [decodePartFields]
      exact finishPart_unknown acc k v hm hk2
  | cons kv rest ih =>
    intro acc k v hm hk1 hk2
    obtain ⟨k', v'⟩ := kv
    rcases hm with hm | hlv
    · rcases List.mem_cons.mp hm with heq | hm'
      · cases heq
        have hchld : k ≠ "chld" := by
          intro h
          exact hk1 (by simp [partKeys, h])
        have hps := partStep_unknown k v acc hk1
        have hrec : decodePartFields ((k, v) :: rest) acc =
            decodePartFields rest {acc with leftover := acc.leftover ++ [(k, v)]} := by
          cases v <;> simp only [decodePartFields, if_neg hchld, hps]
        rw [hrec]
        exact ih _ k v (Or.inr (List.mem_append_right _ (List.mem_singleton_self _)))
          hk1 hk2
      · rcases decodePartFields_cons_step k' v' rest acc with hnone | ⟨acc', heq, _⟩
        · exact hnone
        · rw [heq]
          exact ih acc' k v (Or.inl hm') hk1 hk2
    · rcases decodePartFields_cons_step k' v' rest acc with hnone | ⟨acc', heq, hmono⟩
      · exact hnone
      · rw [heq]
        exact ih acc' k v (Or.inr (hmono _ hlv)) hk1 hk2


theorem faceBindStep {α : Type} (o : Option α) (g : α → FaceAcc)
    (rest : List (String × Nbt)) :
    (o.bind fun x => decodeFaceFields rest (g x)) = none ∨
    ∃ acc', (o.bind fun x => decodeFaceFields rest (g x)) =
      decodeFaceFields rest acc' := by
  cases o with
  | none => exact Or.inl rfl
  | some x => exact Or.inr ⟨g x, rfl⟩

/-- One `Face` entry: a decode error or a recursion. -/
theorem decodeFaceFields_cons_step (k : String) (v : Nbt)
    (rest : List (String × Nbt)) (acc : FaceAcc) :
    decodeFaceFields ((k, v) :: rest) acc = none ∨
    ∃ acc', decodeFaceFields ((k, v) :: rest) acc = decodeFaceFields rest acc' := by
  simp only [decodeFaceFields]
  split_ifs <;> first
    | exact faceBindStep _ _ _
    | exact Or.inl rfl

/-- An unrecognized key at the head of a `Face` compound is an immediate
error. -/
theorem decodeFaceFields_unknown_head (k : String) (v : Nbt)
    (rest : List (String × Nbt)) (acc : FaceAcc) (hk : k ∉ faceKeys) :
    decodeFaceFields ((k, v) :: rest) acc = none := by
  simp only [faceKeys, List.mem_cons, List.not_mem_nil, or_false, not_or] at hk
  obtain ⟨h1, h2, h3⟩ := hk
  simp [decodeFaceFields, h1, h2, h3]

/-- The `Face` record rejects a field set containing any key outside the
schema. -/
theorem decodeFaceFields_unknown :
    ∀ (fields : List (String × Nbt)) (acc : FaceAcc) (k : String) (v : Nbt),
      (k, v) ∈ fields → k ∉ faceKeys → decodeFaceFields fields acc = none := by
  intro fields
  induction fields with
  | nil =>
    intro acc k v hm _
    exact absurd hm (List.not_mem_nil _)
  | cons kv rest ih =>
    intro acc k v hm hk
    obtain ⟨k', v'⟩ := kv
    rcases List.mem_cons.mp hm with heq | hm'
    · cases heq
      exact decodeFaceFields_unknown_head k v rest acc hk
    · rcases decodeFaceFields_cons_step k' v' rest acc with hnone | ⟨acc', heq⟩
      · exact hnone
      · rw [heq]
        exact ih acc' k v hm' hk

theorem sidedBindStep {α : Type} (o : Option α) (g : α → SidedAcc)
    (rest : List (String × Nbt)) :
    (o.bind fun x => decodeSidedFields rest (g x)) = none ∨
    ∃ acc', (o.bind fun x => decodeSidedFields rest (g x)) =
      decodeSidedFields rest acc' := by
  cases o with
  | none => exact Or.inl rfl
  | some x => exact Or.inr ⟨g x, rfl⟩

/-- One `Sided` entry: a decode error or a recursion. -/
theorem decodeSidedFields_cons_step (k : String) (v : Nbt)
    (rest : List (String × Nbt)) (acc : SidedAcc) :
    decodeSidedFields ((k, v) :: rest) acc = none ∨
    ∃ acc', decodeSidedFields ((k, v) :: rest) acc = decodeSidedFields rest acc' := by
  simp only [decodeSidedFields]
  split_ifs <;> first
    | exact sidedBindStep _ _ _
    | exact Or.inl rfl

/-- An unrecognized key at the head of a `Sided` compound is an immediate
error. -/
theorem decodeSidedFields_unknown_head (k : String) (v : Nbt)
    (rest : List (String × Nbt)) (acc : SidedAcc) (hk : k ∉ sidedKeys) :
    decodeSidedFields ((k, v) :: rest) acc = none := by
  simp only [sidedKeys, List.mem_cons, List.not_mem_nil, or_false, not_or] at hk
  obtain ⟨h1, h2, h3, h4, h5, h6⟩ := hk
  simp [decodeSidedFields, h1, h2, h3, h4, h5, h6]

/-- The `Sided` record rejects a field set containing any key outside the
schema. -/
theorem decodeSidedFields_unknown :
    ∀ (fields : List (String × Nbt)) (acc : SidedAcc) (k : String) (v : Nbt),
      (k, v) ∈ fields → k ∉ sidedKeys → decodeSidedFields fields acc = none := by
  intro fields
  induction fields with
  | nil =>
    intro acc k v hm _
    exact absurd hm (List.not_mem_nil _)
  | cons kv rest ih =>
    intro acc k v hm hk
    obtain ⟨k', v'⟩ := kv
    rcases List.mem_cons.mp hm with heq | hm'
    · cases heq
      exact decodeSidedFields_unknown_head k v rest acc hk
    · rcases decodeSidedFields_cons_step k' v' rest acc with hnone | ⟨acc', heq⟩
      · exact hnone
      · rw [heq]
        exact ih acc' k v hm' hk

theorem meshBindStep {α : Type} (o : Option α) (g : α → MeshAcc)
    (rest : List (String × Nbt)) :
    (o.bind fun x => decodeMeshFields rest (g x)) = none ∨
    ∃ acc', (o.bind fun x => decodeMeshFields rest (g x)) =
      decodeMeshFields rest acc' := by
  cases o with
  | none => exact Or.inl rfl
  | some x => exact Or.inr ⟨g x, rfl⟩

/-- One `MeshData` entry: a decode error or a recursion. -/
theorem decodeMeshFields_cons_step (k : String) (v : Nbt)
    (rest : List (String × Nbt)) (acc : MeshAcc) :
    decodeMeshFields ((k, v) :: rest) acc = none ∨
    ∃ acc', decodeMeshFields ((k, v) :: rest) acc = decodeMeshFields rest acc' := by
  simp only [decodeMeshFields]
  split_ifs <;> first
    | exact meshBindStep _ _ _
    | exact Or.inl rfl

/-- An unrecognized key at the head of a `MeshData` compound is an immediate
error. -/
theorem decodeMeshFields_unknown_head (k : String) (v : Nbt)
    (rest : List (String × Nbt)) (acc : MeshAcc) (hk : k ∉ meshKeys) :
    decodeMeshFields ((k, v) :: rest) acc = none := by
  simp only [meshKeys, List.mem_cons, List.not_mem_nil, or_false, not_or] at hk
  obtain ⟨h1, h2, h3, h4⟩ := hk
  simp [decodeMeshFields, h1, h2, h3, h4]

/-- The `MeshData` record rejects a field set containing any key outside the
schema. -/
theorem decodeMeshFields_unknown :
    ∀ (fields : List (String × Nbt)) (acc : MeshAcc) (k : String) (v : Nbt),
      (k, v) ∈ fields → k ∉ meshKeys → decodeMeshFields fields acc = none := by
  intro fields
  induction fields with
  | nil =>
    intro acc k v hm _
    exact absurd hm (List.not_mem_nil _)
  | cons kv rest ih =>
    intro acc k v hm hk
    obtain ⟨k', v'⟩ := kv
    rcases List.mem_cons.mp hm with heq | hm'
    · cases heq
      exact decodeMeshFields_unknown_head k v rest acc hk
    · rcases decodeMeshFields_cons_step k' v' rest acc with hnone | ⟨acc', heq⟩
      · exact hnone
      · rw [heq]
        exact ih acc' k v hm' hk

theorem textureDataBindStep {α : Type} (o : Option α) (g : α → TextureDataAcc)
    (rest : List (String × Nbt)) :
    (o.bind fun x => decodeTextureDataFields rest (g x)) = none ∨
    ∃ acc', (o.bind fun x => decodeTextureDataFields rest (g x)) =
      decodeTextureDataFields rest acc' := by
  cases o with
  | none => exact Or.inl rfl
  | some x => exact Or.inr ⟨g x, rfl⟩

/-- One `TextureData` entry: a decode error or a recursion. -/
theorem decodeTextureDataFields_cons_step (k : String) (v : Nbt)
    (rest : List (String × Nbt)) (acc : TextureDataAcc) :
    decodeTextureDataFields ((k, v) :: rest) acc = none ∨
    ∃ acc', decodeTextureDataFields ((k, v) :: rest) acc =
      decodeTextureDataFields rest acc' := by
  simp only [decodeTextureDataFields]
  split_ifs <;> first
    | exact textureDataBindStep _ _ _
    | exact Or.inl rfl

/-- An unrecognized key at the head of a `TextureData` compound is an
immediate error. -/
theorem decodeTextureDataFields_unknown_head (k : String) (v : Nbt)
    (rest : List (String × Nbt)) (acc : TextureDataAcc)
    (hk : k ∉ textureDataKeys) :
    decodeTextureDataFields ((k, v) :: rest) acc = none := by
  simp only [textureDataKeys, List.mem_cons, List.not_mem_nil, or_false,
    not_or] at hk
  obtain ⟨h1, h2⟩ := hk
  simp [decodeTextureDataFields, h1, h2]

/-- The `TextureData` record rejects a field set containing any key outside
the schema. -/
theorem decodeTextureDataFields_unknown :
    ∀ (fields : List (String × Nbt)) (acc : TextureDataAcc) (k : String)
      (v : Nbt),
      (k, v) ∈ fields → k ∉ textureDataKeys →
      decodeTextureDataFields fields acc = none := by
  intro fields
  induction fields with
  | nil =>
    intro acc k v hm _
    exact absurd hm (List.not_mem_nil _)
  | cons kv rest ih =>
    intro acc k v hm hk
    obtain ⟨k', v'⟩ := kv
    rcases List.mem_cons.mp hm with heq | hm'
    · cases heq
      exact decodeTextureDataFields_unknown_head k v rest acc hk
    · rcases decodeTextureDataFields_cons_step k' v' rest acc with hnone | ⟨acc', heq⟩
      · exact hnone
      · rw [heq]
        exact ih acc' k v hm' hk

theorem texturesBindStep {α : Type} (o : Option α) (g : α → TexturesAcc)
    (rest : List (String × Nbt)) :
    (o.bind fun x => decodeTexturesFields rest (g x)) = none ∨
    ∃ acc', (o.bind fun x => decodeTexturesFields rest (g x)) =
      decodeTexturesFields rest acc' := by
  cases o with
  | none => exact Or.inl rfl
  | some x => exact Or.inr ⟨g x, rfl⟩

/-- One `Textures` entry: a decode error or a recursion. -/
theorem decodeTexturesFields_cons_step (k : String) (v : Nbt)
    (rest : List (String × Nbt)) (acc : TexturesAcc) :
    decodeTexturesFields ((k, v) :: rest) acc = none ∨
    ∃ acc', decodeTexturesFields ((k, v) :: rest) acc =
      decodeTexturesFields rest acc' := by
  simp only [decodeTexturesFields]
  split_ifs <;> first
    | exact texturesBindStep _ _ _
    | exact Or.inl rfl

/-- An unrecognized key at the head of a `Textures` compound is an immediate
error. -/
theorem decodeTexturesFields_unknown_head (k : String) (v : Nbt)
    (rest : List (String × Nbt)) (acc : TexturesAcc) (hk : k ∉ texturesKeys) :
    decodeTexturesFields ((k, v) :: rest) acc = none := by
  simp only [texturesKeys, List.mem_cons, List.not_mem_nil, or_false,
    not_or] at hk
  obtain ⟨h1, h2⟩ := hk
  simp [decodeTexturesFields, h1, h2]

/-- The `Textures` record rejects a field set containing any key outside the
schema. -/
theorem decodeTexturesFields_unknown :
    ∀ (fields : List (String × Nbt)) (acc : TexturesAcc) (k : String) (v : Nbt),
      (k, v) ∈ fields → k ∉ texturesKeys →
      decodeTexturesFields fields acc = none := by
  intro fields
  induction fields with
  | nil =>
    intro acc k v hm _
    exact absurd hm (List.not_mem_nil _)
  | cons kv rest ih =>
    intro acc k v hm hk
    obtain ⟨k', v'⟩ := kv
    rcases List.mem_cons.mp hm with heq | hm'
    · cases heq
      exact decodeTexturesFields_unknown_head k v rest acc hk
    · rcases decodeTexturesFields_cons_step k' v' rest acc with hnone | ⟨acc', heq⟩
      · exact hnone
      · rw [heq]
        exact ih acc' k v hm' hk

theorem metadataBindStep {α : Type} (o : Option α) (g : α → MetadataAcc)
    (rest : List (String × Nbt)) :
    (o.bind fun x => decodeMetadataFields rest (g x)) = none ∨
    ∃ acc', (o.bind fun x => decodeMetadataFields rest (g x)) =
      decodeMetadataFields rest acc' := by
  cases o with
  | none => exact Or.inl rfl
  | some x => exact Or.inr ⟨g x, rfl⟩

/-- One `Metadata` entry: a decode error or a recursion. -/
theorem decodeMetadataFields_cons_step (k : String) (v : Nbt)
    (rest : List (String × Nbt)) (acc : MetadataAcc) :
    decodeMetadataFields ((k, v) :: rest) acc = none ∨
    ∃ acc', decodeMetadataFields ((k, v) :: rest) acc =
      decodeMetadataFields rest acc' := by
  simp only [decodeMetadataFields]
  by_cases h1 : k = "uuid"
  · rw [if_pos h1]
    exact metadataBindStep _ _ _
  rw [if_neg h1]
  by_cases h2 : k = "authors"
  · rw [if_pos h2]
    exact metadataBindStep _ _ _
  rw [if_neg h2]
  by_cases h3 : k = "color"
  · rw [if_pos h3]
    exact metadataBindStep _ _ _
  rw [if_neg h3]
  by_cases h4 : k = "bg"
  · rw [if_pos h4]
    exact metadataBindStep _ _ _
  rw [if_neg h4]
  by_cases h5 : k = "id"
  · rw [if_pos h5]
    exact metadataBindStep _ _ _
  rw [if_neg h5]
  by_cases h6 : k = "name"
  · rw [if_pos h6]
    exact metadataBindStep _ _ _
  rw [if_neg h6]
  by_cases h7 : k = "description"
  · rw [if_pos h7]
    exact metadataBindStep _ _ _
  rw [if_neg h7]
  by_cases h8 : k = "ver"
  · rw [if_pos h8]
    exact metadataBindStep _ _ _
  rw [if_neg h8]
  exact Or.inl rfl

/-- An unrecognized key at the head of a `Metadata` compound is an immediate
error. -/
theorem decodeMetadataFields_unknown_head (k : String) (v : Nbt)
    (rest : List (String × Nbt)) (acc : MetadataAcc) (hk : k ∉ metadataKeys) :
    decodeMetadataFields ((k, v) :: rest) acc = none := by
  simp only [metadataKeys, List.mem_cons, List.not_mem_nil, or_false,
    not_or] at hk
  obtain ⟨h1, h2, h3, h4, h5, h6, h7, h8⟩ := hk
  simp [decodeMetadataFields, h1, h2, h3, h4, h5, h6, h7, h8]

/-- The `Metadata` record rejects a field set containing any key outside the
schema. -/
theorem decodeMetadataFields_unknown :
    ∀ (fields : List (String × Nbt)) (acc : MetadataAcc) (k : String) (v : Nbt),
      (k, v) ∈ fields → k ∉ metadataKeys →
      decodeMetadataFields fields acc = none := by
  intro fields
  induction fields with
  | nil =>
    intro acc k v hm _
    exact absurd hm (List.not_mem_nil _)
  | cons kv rest ih =>
    intro acc k v hm hk
    obtain ⟨k', v'⟩ := kv
    rcases List.mem_cons.mp hm with heq | hm'
    · cases heq
      exact decodeMetadataFields_unknown_head k v rest acc hk
    · rcases decodeMetadataFields_cons_step k' v' rest acc with hnone | ⟨acc', heq⟩
      · exact hnone
      · rw [heq]
        exact ih acc' k v hm' hk

/-- A list element whose decode fails makes the whole sequence fail. -/
theorem mapMOpt_none {α β : Type} (f : α → Option β) :
    ∀ (xs : List α) (x : α), x ∈ xs → f x = none → mapMOpt f xs = none := by
  intro xs
  induction xs with
  | nil =>
    intro x hx _
    exact absurd hx (List.not_mem_nil _)
  | cons a tl ih =>
    intro x hx hf
    rcases List.mem_cons.mp hx with rfl | hx'
    · simp [mapMOpt, hf]
    · cases hfa : f a with
      | none => simp [mapMOpt, hfa]
      | some y => simp [mapMOpt, hfa, ih x hx' hf]

/-- A `models` entry whose part decode fails makes the whole bundle decode
fail wherever it sits in the compound. -/
theorem decodeMoonFields_models_bad :
    ∀ (fields : List (String × Nbt)) (acc : MoonAcc) (v : Nbt),
      ("models", v) ∈ fields → asModelPart v = none →
      decodeMoonFields fields acc = none := by
  intro fields
  induction fields with
  | nil =>
    intro acc v hm _
    exact absurd hm (List.not_mem_nil _)
  | cons kv rest ih =>
    intro acc v hm hv
    obtain ⟨k', v'⟩ := kv
    rcases List.mem_cons.mp hm with heq | hm'
    · cases heq
      cases hA : acc.models with
      | some m => simp [decodeMoonFields, setOnce, hA]
      | none => simp [decodeMoonFields, setOnce, hA, hv]
    · rcases decodeMoonFields_cons_step k' v' rest acc with hnone | ⟨acc', heq⟩
      · exact hnone
      · rw [heq]
        exact ih acc' v hm' hv

/-- C8: an unrecognized field anywhere in the bundle schema is a decode
error, never silently ignored — at the top-level `Moon` compound, inside a
model-part node (whose unknown keys fall through to the untagged `ModelData`,
every variant of which rejects them), inside every nested record (`Face`,
`Sided`, `MeshData`, `ModelData`, `TextureData` — standalone and inside the
texture-data list — `Textures`, `Metadata`), and propagating through a full
bundle decode that carries a model part with an unknown field. -/
theorem unknown_field_rejected :
    (∀ (level : Nat) (fields : List (String × Nbt)) (k : String) (v : Nbt),
      (k, v) ∈ fields → k ∉ moonKeys →
      Moon.decode ⟨level, .compound fields⟩ = none) ∧
    (∀ (fields : List (String × Nbt)) (k : String) (v : Nbt),
      (k, v) ∈ fields → k ∉ partKeys → k ∉ dataKeys →
      asModelPart (.compound fields) = none) ∧
    (∀ (fields : List (String × Nbt)) (k : String) (v : Nbt),
      (k, v) ∈ fields → k ∉ faceKeys → asFace (.compound fields) = none) ∧
    (∀ (fields : List (String × Nbt)) (k : String) (v : Nbt),
      (k, v) ∈ fields → k ∉ sidedKeys → asSided (.compound fields) = none) ∧
    (∀ (fields : List (String × Nbt)) (acc : MeshAcc) (k : String) (v : Nbt),
      (k, v) ∈ fields → k ∉ meshKeys → decodeMeshFields fields acc = none) ∧
    (∀ (fields : List (String × Nbt)) (k : String) (v : Nbt),
      (k, v) ∈ fields → k ∉ dataKeys → decodeModelData fields = none) ∧
    (∀ (fields : List (String × Nbt)) (acc : TextureDataAcc) (k : String)
      (v : Nbt),
      (k, v) ∈ fields → k ∉ textureDataKeys →
      decodeTextureDataFields fields acc = none) ∧
    (∀ (xs : List Nbt) (fields : List (String × Nbt)) (k : String) (v : Nbt),
      Nbt.compound fields ∈ xs → (k, v) ∈ fields → k ∉ textureDataKeys →
      asTextureDataList (.list xs) = none) ∧
    (∀ (fields : List (String × Nbt)) (k : String) (v : Nbt),
      (k, v) ∈ fields → k ∉ texturesKeys → asTextures (.compound fields) = none) ∧
    (∀ (fields : List (String × Nbt)) (k : String) (v : Nbt),
      (k, v) ∈ fields → k ∉ metadataKeys → asMetadata (.compound fields) = none) ∧
    (∀ (level : Nat) (mfields pfields : List (String × Nbt)) (k : String)
      (v : Nbt),
      ("models", .compound pfields) ∈ mfields → (k, v) ∈ pfields →
      k ∉ partKeys → k ∉ dataKeys →
      Moon.decode ⟨level, .compound mfields⟩ = none) := by
  refine ⟨?_, ?_, ?_, ?_, ?_, ?_, ?_, ?_, ?_, ?_, ?_⟩
  · intro level fields k v hm hk
    simp only [Moon.decode]
    exact decodeMoonFields_unknown fields {} k v hm hk
  · intro fields k v hm hk1 hk2
    simp only [asModelPart]
    exact decodePartFields_unknown fields {} k v (Or.inl hm) hk1 hk2
  · intro fields k v hm hk
    simp only [asFace]
    exact decodeFaceFields_unknown fields {} k v hm hk
  · intro fields k v hm hk
    simp only [asSided]
    exact decodeSidedFields_unknown fields {} k v hm hk
  · intro fields acc k v hm hk
    exact decodeMeshFields_unknown fields acc k v hm hk
  · intro fields k v hm hk
    exact decodeModelData_unknown fields k v hm hk
  · intro fields acc k v hm hk
    exact decodeTextureDataFields_unknown fields acc k v hm hk
  · intro xs fields k v hxs hm hk
    simp only [asTextureDataList]
    exact mapMOpt_none _ xs (.compound fields) hxs
      (decodeTextureDataFields_unknown fields {} k v hm hk)
  · intro fields k v hm hk
    simp only [asTextures]
    exact decodeTexturesFields_unknown fields {} k v hm hk
  · intro fields k v hm hk
    simp only [asMetadata]
    exact decodeMetadataFields_unknown fields {} k v hm hk
  · intro level mfields pfields k v hmm hmp hk1 hk2
    simp only [Moon.decode]
    refine decodeMoonFields_models_bad mfields {} (.compound pfields) hmm ?_
    simp only [asModelPart]
    exact decodePartFields_unknown pfields {} k v (Or.inl hmp) hk1 hk2

/-- Witness for C8: a concrete unrecognized key at every level of the
schema. -/
theorem unknown_field_rejected_witness :
    Moon.decode ⟨6, .compound [("frotz", .byte 1)]⟩ = none ∧
    asModelPart (.compound [("name", .string "x"), ("frotz", .byte 1)]) = none ∧
    asFace (.compound [("frotz", .byte 1)]) = none ∧
    asSided (.compound [("frotz", .byte 1)]) = none ∧
    decodeMeshFields [("frotz", .byte 1)] {} = none ∧
    decodeModelData [("frotz", .byte 1)] = none ∧
    decodeTextureDataFields [("frotz", .byte 1)] {} = none ∧
    asTextureDataList (.list [.compound [("frotz", .byte 1)]]) = none ∧
    asTextures (.compound [("frotz", .byte 1)]) = none ∧
    asMetadata (.compound [("frotz", .byte 1)]) = none ∧
    Moon.decode ⟨6, .compound [("models", .compound [("frotz", .byte 1)])]⟩ = none := by
  obtain ⟨h1, h2, h3, h4, h5, h6, h7, h8, h9, h10, h11⟩ := unknown_field_rejected
  refine ⟨?_, ?_, ?_, ?_, ?_, ?_, ?_, ?_, ?_, ?_, ?_⟩
  · exact h1 6 [("frotz", .byte 1)] "frotz" (.byte 1)
      (List.mem_singleton_self _) (by decide)
  · exact h2 [("name", .string "x"), ("frotz", .byte 1)] "frotz" (.byte 1)
      (List.mem_cons_of_mem _ (List.mem_singleton_self _)) (by decide) (by decide)
  · exact h3 [("frotz", .byte 1)] "frotz" (.byte 1)
      (List.mem_singleton_self _) (by decide)
  · exact h4 [("frotz", .byte 1)] "frotz" (.byte 1)
      (List.mem_singleton_self _) (by decide)
  · exact h5 [("frotz", .byte 1)] {} "frotz" (.byte 1)
      (List.mem_singleton_self _) (by decide)
  · exact h6 [("frotz", .byte 1)] "frotz" (.byte 1)
      (List.mem_singleton_self _) (by decide)
  · exact h7 [("frotz", .byte 1)] {} "frotz" (.byte 1)
      (List.mem_singleton_self _) (by decide)
  · exact h8 [.compound [("frotz", .byte 1)]] [("frotz", .byte 1)] "frotz"
      (.byte 1) (List.mem_singleton_self _) (List.mem_singleton_self _) (by decide)
  · exact h9 [("frotz", .byte 1)] "frotz" (.byte 1)
      (List.mem_singleton_self _) (by decide)
  · exact h10 [("frotz", .byte 1)] "frotz" (.byte 1)
      (List.mem_singleton_self _) (by decide)
  · exact h11 6 [("models", .compound [("frotz", .byte 1)])] [("frotz", .byte 1)]
      "frotz" (.byte 1) (List.mem_singleton_self _)
      (List.mem_singleton_self _) (by decide) (by decide)
